import Mathlib

set_option maxRecDepth 4000

/-!
Verification development for two components of the OpenAssetTools asset
conversion code base:

* the IW4 menu expression-statement serializer
  (`src/ObjWriting/Game/IW4/AssetDumpers/AssetDumperMenuDef.cpp`), and
* the T6 InfoString struct-to-text converter
  (`src/ZoneCommon/.../InfoStringT6.cpp`, the unnamed sampled source).

The definitions below are shallow embeddings of those sources.  C pointers
become `Option` values, raw function pointers become abstract `Nat` handles,
and the `while` loops of the serializer are compiled to structurally
recursive functions over an explicit fuel argument (one unit of fuel per
function activation); fuel sufficiency is proved separately.
-/

namespace MenuStatement

/- ===== Expression entry data model (IW4 `Statement_s` and friends) ===== -/

/-- Tagged payload of an `EET_OPERAND` expression entry (`Operand` union with
its `dataType` tag).  The float payload carries the decimal text the C++
stream insertion would print for it, since the claims never depend on float
formatting; `unknownVal` stands for any `dataType` outside the four handled
tags (the serializer's `switch` default renders nothing for those). -/
inductive OperandValue
  | intVal (i : Int)
  | floatVal (text : String)
  | stringVal (s : String)
  | functionVal (handle : Nat)
  | unknownVal
deriving Repr, DecidableEq

/-- One entry of a statement: either an operator (`EET_OPERATOR`, carrying
`data.op`) or an operand (`EET_OPERAND`, carrying `data.operand`). -/
inductive ExpressionEntry
  | operatorEntry (op : Int)
  | operandEntry (v : OperandValue)
deriving Repr, DecidableEq

/-- A static dvar record referenced by the supporting data.  The C pointer to
the dvar name may be null, hence the `Option`. -/
structure StaticDvar where
  dvarName : Option String
deriving Repr, DecidableEq

/-- `staticDvarList` of the supporting data: the declared count and the
(possibly null) array of (possibly null) static dvar pointers. -/
structure StaticDvarList where
  numStaticDvars : Int
  staticDvars : Option (List (Option StaticDvar))
deriving Repr, DecidableEq

/-- `uifunctions` of the supporting data: the declared count and the
(possibly null) array of function pointers, modelled as abstract handles. -/
structure UIFunctionList where
  totalFunctions : Int
  functions : Option (List Nat)
deriving Repr, DecidableEq

/-- `ExpressionSupportingData`: the function table and static dvar table the
serializer consults. -/
structure ExpressionSupportingData where
  uifunctions : UIFunctionList
  staticDvarList : StaticDvarList
deriving Repr, DecidableEq

/-- `Statement_s`: the entry array with its declared length and the
(possibly null) supporting data pointer. -/
structure Statement_s where
  numEntries : Int
  entries : List ExpressionEntry
  supportingData : Option ExpressionSupportingData
deriving Repr, DecidableEq

/-- Read `statement->entries[i]`.  The C code only indexes positions below
`numEntries`; out-of-range reads (undefined behaviour in C) yield a dummy
operand entry here. -/
def entryAt (stmt : Statement_s) (i : Nat) : ExpressionEntry :=
  stmt.entries.getD i (ExpressionEntry.operandEntry OperandValue.unknownVal)

/-- `static_cast<size_t>(statement->numEntries)` under the source's
`assert(statement->numEntries >= 0)`. -/
def statementEnd (stmt : Statement_s) : Nat :=
  stmt.numEntries.toNat

/- ===== Operator opcode constants =====

The operator enum itself is declared in the IW4 asset header, which is not
among the sampled sources; the numeric values are pinned by the sampled
dumper indexing `g_expFunctionNames` directly by opcode (")" is entry 1,
"(" entry 16, "," entry 17, the last named operator ">>" is entry 22, and
the four static-dvar accessor tokens are entries 23 to 26). -/

def OP_NOOP : Int := 0
def OP_RIGHTPAREN : Int := 1
def OP_ADD : Int := 5
/-- Modelled from the spec: the "unary negation marker" after which no space
is owed; its token is the `"!"` entry (index 7) of the opcode-name table. -/
def OP_NEG : Int := 7
def OP_LEFTPAREN : Int := 16
def OP_COMMA : Int := 17
/-- Count of named operators; every opcode at or above it is rendered as a
function call with an implied opening parenthesis. -/
def OP_COUNT : Int := 23
def EXP_FUNC_STATIC_DVAR_INT : Int := 23
def EXP_FUNC_STATIC_DVAR_BOOL : Int := 24
def EXP_FUNC_STATIC_DVAR_FLOAT : Int := 25
def EXP_FUNC_STATIC_DVAR_STRING : Int := 26

/-- `IW4::g_expFunctionNames`: the fixed opcode-to-text table of the sampled
dumper (186 entries). -/
def g_expFunctionNames : List String := [
    "NOOP",
    ")",
    "*",
    "/",
    "%",
    "+",
    "-",
    "!",
    "<",
    "<=",
    ">",
    ">=",
    "==",
    "!=",
    "&&",
    "||",
    "(",
    ",",
    "&",
    "|",
    "~",
    "<<",
    ">>",
    "dvarint(static)\x01\x02",
    "dvarbool(static)\x01\x03",
    "dvarfloat(static)\x01\x04",
    "dvarstring(static)\x01\x05",
    "int",
    "string",
    "float",
    "sin",
    "cos",
    "min",
    "max",
    "milliseconds",
    "dvarint",
    "dvarbool",
    "dvarfloat",
    "dvarstring",
    "stat",
    "ui_active",
    "flashbanged",
    "usingvehicle",
    "missilecam",
    "scoped",
    "scopedthermal",
    "scoreboard_visible",
    "inkillcam",
    "inkillcamnpc",
    "player",
    "getperk",
    "selecting_location",
    "selecting_direction",
    "team",
    "otherteam",
    "marinesfield",
    "opforfield",
    "menuisopen",
    "writingdata",
    "inlobby",
    "inprivateparty",
    "privatepartyhost",
    "privatepartyhostinlobby",
    "aloneinparty",
    "adsjavelin",
    "weaplockblink",
    "weapattacktop",
    "weapattackdirect",
    "weaplocking",
    "weaplocked",
    "weaplocktooclose",
    "weaplockscreenposx",
    "weaplockscreenposy",
    "secondsastime",
    "tablelookup",
    "tablelookupbyrow",
    "tablegetrownum",
    "locstring",
    "localvarint",
    "localvarbool",
    "localvarfloat",
    "localvarstring",
    "timeleft",
    "secondsascountdown",
    "gamemsgwndactive",
    "gametypename",
    "gametype",
    "gametypedescription",
    "scoreatrank",
    "friendsonline",
    "spectatingclient",
    "spectatingfree",
    "statrangeanybitsset",
    "keybinding",
    "actionslotusable",
    "hudfade",
    "maxrecommendedplayers",
    "acceptinginvite",
    "isintermission",
    "gamehost",
    "partyismissingmappack",
    "partymissingmappackerror",
    "anynewmappacks",
    "amiselected",
    "partystatusstring",
    "attachedcontrollercount",
    "issplitscreenonlinepossible",
    "splitscreenplayercount",
    "getplayerdata",
    "getplayerdatasplitscreen",
    "experienceforlevel",
    "levelforexperience",
    "isitemunlocked",
    "isitemunlockedsplitscreen",
    "debugprint",
    "getplayerdataanybooltrue",
    "weaponclassnew",
    "weaponname",
    "isreloading",
    "savegameavailable",
    "unlockeditemcount",
    "unlockeditemcountsplitscreen",
    "unlockeditem",
    "unlockeditemsplitscreen",
    "mailsubject",
    "mailfrom",
    "mailreceived",
    "mailbody",
    "maillootlocalized",
    "mailgivesloot",
    "anynewmail",
    "mailtimetofollowup",
    "mailloottype",
    "mailranlottery",
    "lotterylootlocalized",
    "radarisjammed",
    "radarjamintensity",
    "radarisenabled",
    "isempjammed",
    "playerads",
    "weaponheatactive",
    "weaponheatvalue",
    "weaponheatoverheated",
    "getsplashtext",
    "getsplashdescription",
    "getsplashmaterial",
    "splashhasicon",
    "splashrownum",
    "getfocuseditemname",
    "getfocuseditemx",
    "getfocuseditemy",
    "getfocuseditemwidth",
    "getfocuseditemheight",
    "getitemx",
    "getitemy",
    "getitemwidth",
    "getitemheight",
    "playlist",
    "scoreboardexternalmutenotice",
    "getclientmatchdata",
    "getclientmatchdatadef",
    "getmapname",
    "getmapimage",
    "getmapcustom",
    "getmigrationstatus",
    "getplayercardinfo",
    "isofflineprofileselected",
    "coopplayer",
    "iscoop",
    "getpartystatus",
    "getsearchparams",
    "gettimeplayed",
    "isselectedplayerfriend",
    "getcharbyindex",
    "getprofiledata",
    "isprofilesignedin",
    "getwaitpopupstatus",
    "getnattype",
    "getlocalizednattype",
    "getadjustedsafeareahorizontal",
    "getadjustedsafeareavertical",
    "connectioninfo",
    "offlineprofilecansave",
    "allsplitscreenprofilescansave",
    "allsplitscreenprofilesaresignedin",
    "coopready"
]

/- ===== FindStatementClosingParenthesis ===== -/

/-- Scan loop body of `FindStatementClosingParenthesis`, compiled with an
explicit iteration budget `rem` (the source's `for` loop performs at most
`statementEnd - pos` iterations, so any `rem` at least that large is
faithful).  Depth handling mirrors the source exactly: a left parenthesis or
any opcode at or above `OP_COUNT` increments the depth, a right parenthesis
decrements it when positive and the scan stops when the depth reaches 0. -/
def findClosingAux (stmt : Statement_s) (stmtEnd : Nat) : Nat → Nat → Int → Nat
  | 0, _, _ => stmtEnd
  | rem + 1, pos, depth =>
    if pos < stmtEnd then
      match entryAt stmt pos with
      | ExpressionEntry.operatorEntry o =>
        if o = OP_LEFTPAREN ∨ OP_COUNT ≤ o then
          findClosingAux stmt stmtEnd rem (pos + 1) (depth + 1)
        else if o = OP_RIGHTPAREN then
          let depth2 := if 0 < depth then depth - 1 else depth
          if depth2 = 0 then pos
          else findClosingAux stmt stmtEnd rem (pos + 1) depth2
        else findClosingAux stmt stmtEnd rem (pos + 1) depth
      | ExpressionEntry.operandEntry _ =>
        findClosingAux stmt stmtEnd rem (pos + 1) depth
    else stmtEnd

/-- `MenuDumperIw4::FindStatementClosingParenthesis`: scan forward from one
past the opening position with a depth counter seeded at 1; return the first
position where the depth reaches 0, or the end of the entry array. -/
def FindStatementClosingParenthesis (stmt : Statement_s)
    (openingParenthesisPosition : Nat) : Nat :=
  findClosingAux stmt (statementEnd stmt) (statementEnd stmt)
    (openingParenthesisPosition + 1) 1

/- ===== Operand and operator rendering helpers ===== -/

/-- Linear search of `WriteStatementOperand`'s `VAL_FUNCTION` case: walk the
function table comparing handles, returning the first matching index, or -1.
The source iterates indices below `totalFunctions`; running past the end of
the array (out of bounds in C) counts as not found. -/
def findFunctionIndexAux (handle : Nat) (totalFunctions : Int) :
    List Nat → Nat → Int
  | [], _ => -1
  | f :: rest, i =>
    if (i : Int) < totalFunctions then
      if f = handle then (i : Int)
      else findFunctionIndexAux handle totalFunctions rest (i + 1)
    else -1

/-- First index of `handle` in the supporting function table, or -1. -/
def findFunctionIndex (functions : List Nat) (totalFunctions : Int)
    (handle : Nat) : Int :=
  findFunctionIndexAux handle totalFunctions functions 0

/-- Text printed by `MenuDumperIw4::WriteStatementOperand` for the entry at
`currentPos` (the cursor advances by one and a space becomes owed, which the
caller accounts for).  The operator-entry fallback is unreachable from the
range loop, which dispatches operator entries elsewhere. -/
def writeOperandText (stmt : Statement_s) (currentPos : Nat)
    (spaceNext : Bool) : String :=
  let sp := if spaceNext then " " else ""
  match entryAt stmt currentPos with
  | ExpressionEntry.operandEntry v =>
    sp ++ (match v with
      | OperandValue.intVal i => toString i
      | OperandValue.floatVal text => text
      | OperandValue.stringVal s => "\"" ++ s ++ "\""
      | OperandValue.functionVal handle =>
        (match stmt.supportingData with
         | some sd =>
           (match sd.uifunctions.functions with
            | some fns =>
              let idx := findFunctionIndex fns sd.uifunctions.totalFunctions handle
              if 0 ≤ idx then "FUNC_" ++ toString idx else "INVALID_FUNC"
            | none => "INVALID_FUNC")
         | none => "INVALID_FUNC")
      | OperandValue.unknownVal => "")
  | ExpressionEntry.operatorEntry _ => sp

/-- `switch (expEntry.data.op)` of the static-dvar accessor branch of
`WriteStatementOperator`: the rendered accessor keyword. -/
def staticDvarAccessorName (o : Int) : String :=
  if o = EXP_FUNC_STATIC_DVAR_INT then "dvarint"
  else if o = EXP_FUNC_STATIC_DVAR_BOOL then "dvarbool"
  else if o = EXP_FUNC_STATIC_DVAR_FLOAT then "dvarfloat"
  else if o = EXP_FUNC_STATIC_DVAR_STRING then "dvarstring"
  else ""

/-- Text rendered between the synthesized parentheses of a static-dvar
accessor: the entry after the accessor must be a `VAL_INT` operand
(otherwise `#INVALID_DVAR_OPERAND`); its value must index into a present
static-dvar table (otherwise `#INVALID_DVAR_INDEX`); a null dvar pointer or
null name prints nothing. -/
def staticDvarValueText (stmt : Statement_s) (currentPos : Nat) : String :=
  match entryAt stmt (currentPos + 1) with
  | ExpressionEntry.operandEntry (OperandValue.intVal iv) =>
    (match stmt.supportingData with
     | some sd =>
       (match sd.staticDvarList.staticDvars with
        | some dvars =>
          if 0 ≤ iv ∧ iv < sd.staticDvarList.numStaticDvars then
            (match dvars.getD iv.toNat none with
             | some dv =>
               (match dv.dvarName with
                | some nm => nm
                | none => "")
             | none => "")
          else "#INVALID_DVAR_INDEX"
        | none => "#INVALID_DVAR_INDEX")
     | none => "#INVALID_DVAR_INDEX")
  | _ => "#INVALID_DVAR_OPERAND"

/-- Name lookup of the general operator branch:
`if (op >= 0 && unsigned(op) < extent(g_expFunctionNames))` print the table
entry, else nothing. -/
def operatorNameText (o : Int) : String :=
  if 0 ≤ o ∧ o.toNat < g_expFunctionNames.length then
    g_expFunctionNames.getD o.toNat ""
  else ""

/- ===== The serializer loop ===== -/

/-- `MenuDumperIw4::WriteStatementEntryRange` compiled to a fueled recursive
function; the body of `WriteStatementOperator` (whose only caller is this
loop) is inlined at its call site.  Each activation consumes one unit of
fuel; `writeRangeF_fuel_stable` shows any fuel of at least
`statementEnd + 1 - currentPos` yields the loop's unique result.

Branches mirror the source in order: explicit left parenthesis, the four
static-dvar accessors, then the general operator (with the implied-paren
treatment for opcodes at or above `OP_COUNT`), and operands.  In the
static-dvar branch the source guards the operand read with
`closingParenPos - currentPos + 1 >= 1` in `size_t` arithmetic, which is
false exactly when `closingParenPos + 1 = currentPos`. -/
def writeRangeF : Nat → Statement_s → Nat → Nat → Bool → String
  | 0, _, _, _, _ => ""
  | fuel + 1, stmt, currentPos, endOffset, spaceNext =>
    if currentPos < endOffset then
      match entryAt stmt currentPos with
      | ExpressionEntry.operatorEntry o =>
        let spaceText := if spaceNext ∧ o ≠ OP_COMMA then " " else ""
        if o = OP_LEFTPAREN then
          let close := FindStatementClosingParenthesis stmt currentPos
          spaceText ++ "(" ++ writeRangeF fuel stmt (currentPos + 1) close false
            ++ ")" ++ writeRangeF fuel stmt (close + 1) endOffset true
        else if EXP_FUNC_STATIC_DVAR_INT ≤ o ∧ o ≤ EXP_FUNC_STATIC_DVAR_STRING then
          let close := FindStatementClosingParenthesis stmt currentPos
          let inner := if close + 1 ≠ currentPos then staticDvarValueText stmt currentPos else ""
          spaceText ++ staticDvarAccessorName o ++ "(" ++ inner ++ ")"
            ++ writeRangeF fuel stmt (close + 1) endOffset true
        else
          if OP_COUNT ≤ o then
            let close := FindStatementClosingParenthesis stmt currentPos
            spaceText ++ operatorNameText o ++ "("
              ++ writeRangeF fuel stmt (currentPos + 1) close false ++ ")"
              ++ writeRangeF fuel stmt (close + 1) endOffset (decide (o ≠ OP_NEG))
          else
            spaceText ++ operatorNameText o
              ++ writeRangeF fuel stmt (currentPos + 1) endOffset (decide (o ≠ OP_NEG))
      | ExpressionEntry.operandEntry _ =>
        writeOperandText stmt currentPos spaceNext
          ++ writeRangeF fuel stmt (currentPos + 1) endOffset true
    else ""

/-- `WriteStatementEntryRange` at its canonical (sufficient) fuel. -/
def WriteStatementEntryRange (stmt : Statement_s)
    (startOffset endOffset : Nat) : String :=
  writeRangeF (statementEnd stmt + 1) stmt startOffset endOffset false

/- ===== WriteKey and WriteStatementProperty ===== -/

def MENU_KEY_SPACING : Nat := 28

/-- `MenuDumperIw4::WriteKey`: the key name padded with spaces to the fixed
key column. -/
def WriteKey (keyName : String) : String :=
  keyName ++ String.mk (List.replicate (MENU_KEY_SPACING - keyName.length) ' ')

/-- Whether the first statement entry is an explicit left-parenthesis
operator (the negation of the source's
`statementEnd < 1 || entries[0].type != EET_OPERATOR || entries[0].data.op != OP_LEFTPAREN`). -/
def firstEntryIsLeftParen (stmt : Statement_s) : Bool :=
  decide (1 ≤ statementEnd stmt) &&
    (match entryAt stmt 0 with
     | ExpressionEntry.operatorEntry o => decide (o = OP_LEFTPAREN)
     | _ => false)

/-- `MenuDumperIw4::WriteStatementProperty`, modelled as the text appended to
the output stream.  `indentText` stands for whatever the base class's
`Indent()` emits (the base class is not among the sampled sources; the
claims do not depend on its content).  A null statement pointer or a
negative entry count produces no output at all. -/
def WriteStatementProperty (indentText : String) (propertyKey : String)
    (statementValue : Option Statement_s) (isBooleanStatement : Bool) : String :=
  match statementValue with
  | none => ""
  | some stv =>
    if stv.numEntries < 0 then ""
    else
      let headText :=
        if isBooleanStatement then
          "when" ++ (if firstEntryIsLeftParen stv then "" else " ")
        else ""
      indentText ++ WriteKey propertyKey ++ headText
        ++ WriteStatementEntryRange stv 0 (statementEnd stv) ++ ";\n"

end MenuStatement

namespace InfoStringConv

/- ===== Referenced asset records (name-carrying resource structs) ===== -/

structure FxEffectDef where
  name : String
deriving Repr, DecidableEq

structure XModel where
  name : String
deriving Repr, DecidableEq

structure MaterialInfo where
  name : String
deriving Repr, DecidableEq

structure Material where
  info : MaterialInfo
deriving Repr, DecidableEq

structure PhysPreset where
  name : String
deriving Repr, DecidableEq

structure TracerDef where
  name : String
deriving Repr, DecidableEq

/- ===== Structure instance memory model ===== -/

/-- Typed slot of a structure instance at some byte offset.  The C converter
reinterprets raw bytes per the field descriptor's type tag; the model keeps
one tagged slot per offset and assumes schema-consistent storage (reading a
slot with the wrong reader yields the type's empty/null value, standing for
the unspecified reinterpretation the C would perform).  Float slots carry
the decimal text the C++ stream would print, as no claim depends on float
formatting. -/
inductive StoredValue
  | fxPtr (v : Option FxEffectDef)
  | modelPtr (v : Option XModel)
  | materialPtr (v : Option Material)
  | physPresetPtr (v : Option PhysPreset)
  | tracerPtr (v : Option TracerDef)
  | strPtr (v : Option String)
  | charBuf (cs : List Char)
  | intSlot (i : Int)
  | uintSlot (n : Nat)
  | boolSlot (b : Bool)
  | qboolSlot (i : Int)
  | floatText (text : String)
  | msSlot (i : Int)
  | scriptStringHandle (h : Nat)
  | soundHashSlot (h : Nat)
  | undef
deriving Repr, DecidableEq

/-- A structure instance: an assignment of typed slots to byte offsets. -/
def Structure := Nat → StoredValue

def readFxPtr (s : Structure) (off : Nat) : Option FxEffectDef :=
  match s off with
  | StoredValue.fxPtr v => v
  | _ => none

def readModelPtr (s : Structure) (off : Nat) : Option XModel :=
  match s off with
  | StoredValue.modelPtr v => v
  | _ => none

def readMaterialPtr (s : Structure) (off : Nat) : Option Material :=
  match s off with
  | StoredValue.materialPtr v => v
  | _ => none

def readPhysPresetPtr (s : Structure) (off : Nat) : Option PhysPreset :=
  match s off with
  | StoredValue.physPresetPtr v => v
  | _ => none

def readTracerPtr (s : Structure) (off : Nat) : Option TracerDef :=
  match s off with
  | StoredValue.tracerPtr v => v
  | _ => none

def readStrPtr (s : Structure) (off : Nat) : Option String :=
  match s off with
  | StoredValue.strPtr v => v
  | _ => none

def readCharBuf (s : Structure) (off : Nat) : List Char :=
  match s off with
  | StoredValue.charBuf cs => cs
  | _ => []

def readIntSlot (s : Structure) (off : Nat) : Int :=
  match s off with
  | StoredValue.intSlot i => i
  | _ => 0

def readUintSlot (s : Structure) (off : Nat) : Nat :=
  match s off with
  | StoredValue.uintSlot n => n
  | _ => 0

def readBoolSlot (s : Structure) (off : Nat) : Bool :=
  match s off with
  | StoredValue.boolSlot b => b
  | _ => false

def readQboolSlot (s : Structure) (off : Nat) : Int :=
  match s off with
  | StoredValue.qboolSlot i => i
  | _ => 0

def readFloatText (s : Structure) (off : Nat) : String :=
  match s off with
  | StoredValue.floatText t => t
  | _ => "0"

def readMsSlot (s : Structure) (off : Nat) : Int :=
  match s off with
  | StoredValue.msSlot i => i
  | _ => 0

def readScriptStringHandle (s : Structure) (off : Nat) : Nat :=
  match s off with
  | StoredValue.scriptStringHandle h => h
  | _ => 0

def readSoundHashSlot (s : Structure) (off : Nat) : Nat :=
  match s off with
  | StoredValue.soundHashSlot h => h
  | _ => 0

/- ===== Info string ===== -/

/-- Modelled from the spec: the Info String is an ordered key-to-value
mapping with unique keys and last-write-wins updates (the `InfoString` class
itself is not among the sampled sources). -/
abbrev InfoString := List (String × String)

/-- Modelled from the spec: `InfoString::SetValueForKey` overwrites the
value of an existing key in place, else appends the pair. -/
def SetValueForKey (info : InfoString) (k v : String) : InfoString :=
  if (info.map Prod.fst).contains k then
    info.map (fun p => if p.1 = k then (k, v) else p)
  else info ++ [(k, v)]

/-- The value stored for a key, if any. -/
def valueForKey (info : InfoString) (k : String) : Option String :=
  (info.find? (fun p => p.1 = k)).map Prod.snd

/- ===== Field descriptors and type tags ===== -/

/-- `cspField_t`: key name, byte offset and field type tag. -/
structure cspField_t where
  szName : String
  iOffset : Nat
  iFieldType : Int
deriving Repr, DecidableEq

/- `csParseFieldType_t` values.  The enum is declared in the T6 InfoString
header, which is not among the sampled sources; the declaration order is
the order of the `switch` cases in the sampled converter, starting at 0 as
usual for a plain C enum. -/

def CSPFT_STRING : Int := 0
def CSPFT_STRING_MAX_STRING_CHARS : Int := 1
def CSPFT_STRING_MAX_QPATH : Int := 2
def CSPFT_STRING_MAX_OSPATH : Int := 3
def CSPFT_INT : Int := 4
def CSPFT_UINT : Int := 5
def CSPFT_BOOL : Int := 6
def CSPFT_QBOOLEAN : Int := 7
def CSPFT_FLOAT : Int := 8
def CSPFT_MILLISECONDS : Int := 9
def CSPFT_FX : Int := 10
def CSPFT_XMODEL : Int := 11
def CSPFT_MATERIAL : Int := 12
def CSPFT_MATERIAL_STREAM : Int := 13
def CSPFT_PHYS_PRESET : Int := 14
def CSPFT_SCRIPT_STRING : Int := 15
def CSPFT_TRACER : Int := 16
def CSPFT_SOUND_ALIAS_ID : Int := 17
def CSPFT_NUM_BASE_FIELD_TYPES : Int := 18

/- ===== Base fill primitives =====

These are methods of `InfoStringFromStructConverterBase`, which is not among
the sampled sources; each is modelled from the spec's per-type description
in section 4.1. -/

/-- The characters of an inline buffer up to its first NUL terminator. -/
def bufString (cs : List Char) : String :=
  String.mk (cs.takeWhile (fun c => c ≠ Char.ofNat 0))

/-- Modelled from the spec: STRING reads a pointer-to-characters at the
offset and emits the key only when the pointer is non-null and the text is
non-empty; otherwise the key is omitted. -/
def FillFromString (s : Structure) (key : String) (off : Nat)
    (info : InfoString) : InfoString :=
  match readStrPtr s off with
  | some str => if str ≠ "" then SetValueForKey info key str else info
  | none => info

/-- Modelled from the spec: FIXED STRING BUFFER reads up to `len` characters
from the inline buffer at the offset, with the same omission-on-empty rule
as STRING. -/
def FillFromStringBuffer (s : Structure) (key : String) (off : Nat)
    (len : Nat) (info : InfoString) : InfoString :=
  let value := bufString ((readCharBuf s off).take len)
  if value ≠ "" then SetValueForKey info key value else info

/-- Modelled from the spec: INT always emits the decimal value. -/
def FillFromInt (s : Structure) (key : String) (off : Nat)
    (info : InfoString) : InfoString :=
  SetValueForKey info key (toString (readIntSlot s off))

/-- Modelled from the spec: UINT always emits the decimal value. -/
def FillFromUint (s : Structure) (key : String) (off : Nat)
    (info : InfoString) : InfoString :=
  SetValueForKey info key (toString (readUintSlot s off))

/-- Modelled from the spec: BOOL maps to the canonical "1"/"0" tokens. -/
def FillFromBool (s : Structure) (key : String) (off : Nat)
    (info : InfoString) : InfoString :=
  SetValueForKey info key (if readBoolSlot s off then "1" else "0")

/-- Modelled from the spec: QBOOLEAN reads a small integer and maps nonzero
to "1" and zero to "0". -/
def FillFromQBoolean (s : Structure) (key : String) (off : Nat)
    (info : InfoString) : InfoString :=
  SetValueForKey info key (if readQboolSlot s off ≠ 0 then "1" else "0")

/-- Modelled from the spec: FLOAT emits the textual decimal form. -/
def FillFromFloat (s : Structure) (key : String) (off : Nat)
    (info : InfoString) : InfoString :=
  SetValueForKey info key (readFloatText s off)

/-- Decimal text of a three-digit millisecond remainder with trailing zeros
trimmed. -/
def msFractionText (rem : Nat) : String :=
  String.mk ((toString (1000 + rem)).data.drop 1 |>.reverse.dropWhile
    (fun c => c = '0') |>.reverse)

/-- Modelled from the spec: MILLISECONDS divides the stored integer by 1000
and emits the value in seconds (1500 serializes to "1.5"). -/
def FillFromMilliseconds (s : Structure) (key : String) (off : Nat)
    (info : InfoString) : InfoString :=
  let ms := readMsSlot s off
  let text :=
    if ms % 1000 = 0 then toString (ms / 1000)
    else toString (ms / 1000) ++ "." ++ msFractionText (ms % 1000).natAbs
  SetValueForKey info key text

/-- Modelled from the spec: SCRIPT STRING resolves the interned handle
through the injected callback and emits the resolved text. -/
def FillFromScriptString (s : Structure) (cb : Nat → String) (key : String)
    (off : Nat) (info : InfoString) : InfoString :=
  SetValueForKey info key (cb (readScriptStringHandle s off))

/- ===== The sampled converter (InfoStringT6.cpp) ===== -/

/-- `InfoStringFromStructConverter::FillFromBaseField`: dispatch on the
field type tag.  The resource-pointer cases and the sound-alias case are
written out in the source and embedded here directly; an unrecognized tag
hits the `assert(false)` default, modelled as `Except.error`. -/
def FillFromBaseField (s : Structure) (cb : Nat → String)
    (field : cspField_t) (info : InfoString) : Except Unit InfoString :=
  if field.iFieldType = CSPFT_STRING then
    Except.ok (FillFromString s field.szName field.iOffset info)
  else if field.iFieldType = CSPFT_STRING_MAX_STRING_CHARS then
    Except.ok (FillFromStringBuffer s field.szName field.iOffset 1024 info)
  else if field.iFieldType = CSPFT_STRING_MAX_QPATH then
    Except.ok (FillFromStringBuffer s field.szName field.iOffset 64 info)
  else if field.iFieldType = CSPFT_STRING_MAX_OSPATH then
    Except.ok (FillFromStringBuffer s field.szName field.iOffset 256 info)
  else if field.iFieldType = CSPFT_INT then
    Except.ok (FillFromInt s field.szName field.iOffset info)
  else if field.iFieldType = CSPFT_UINT then
    Except.ok (FillFromUint s field.szName field.iOffset info)
  else if field.iFieldType = CSPFT_BOOL then
    Except.ok (FillFromBool s field.szName field.iOffset info)
  else if field.iFieldType = CSPFT_QBOOLEAN then
    Except.ok (FillFromQBoolean s field.szName field.iOffset info)
  else if field.iFieldType = CSPFT_FLOAT then
    Except.ok (FillFromFloat s field.szName field.iOffset info)
  else if field.iFieldType = CSPFT_MILLISECONDS then
    Except.ok (FillFromMilliseconds s field.szName field.iOffset info)
  else if field.iFieldType = CSPFT_FX then
    Except.ok (match readFxPtr s field.iOffset with
      | some fx => SetValueForKey info field.szName fx.name
      | none => SetValueForKey info field.szName "")
  else if field.iFieldType = CSPFT_XMODEL then
    Except.ok (match readModelPtr s field.iOffset with
      | some model => SetValueForKey info field.szName model.name
      | none => SetValueForKey info field.szName "")
  else if field.iFieldType = CSPFT_MATERIAL ∨ field.iFieldType = CSPFT_MATERIAL_STREAM then
    Except.ok (match readMaterialPtr s field.iOffset with
      | some material => SetValueForKey info field.szName material.info.name
      | none => SetValueForKey info field.szName "")
  else if field.iFieldType = CSPFT_PHYS_PRESET then
    Except.ok (match readPhysPresetPtr s field.iOffset with
      | some physPreset => SetValueForKey info field.szName physPreset.name
      | none => SetValueForKey info field.szName "")
  else if field.iFieldType = CSPFT_SCRIPT_STRING then
    Except.ok (FillFromScriptString s cb field.szName field.iOffset info)
  else if field.iFieldType = CSPFT_TRACER then
    Except.ok (match readTracerPtr s field.iOffset with
      | some tracer => SetValueForKey info field.szName tracer.name
      | none => SetValueForKey info field.szName "")
  else if field.iFieldType = CSPFT_SOUND_ALIAS_ID then
    Except.ok (SetValueForKey info field.szName
      ("@" ++ toString (readSoundHashSlot s field.iOffset)))
  else Except.error ()

/-- `InfoStringFromStructConverter::FillInfoString`: walk the schema in
order; `assert(field.iFieldType >= 0)` is modelled as `Except.error`; tags
below the base-type count dispatch to `FillFromBaseField`, the rest to the
asset-specific extension hook `extHook`. -/
def FillInfoString (s : Structure) (cb : Nat → String)
    (extHook : cspField_t → InfoString → InfoString)
    (fields : List cspField_t) (info : InfoString) : Except Unit InfoString :=
  match fields with
  | [] => Except.ok info
  | field :: rest =>
    if field.iFieldType < 0 then Except.error ()
    else if field.iFieldType < CSPFT_NUM_BASE_FIELD_TYPES then
      match FillFromBaseField s cb field info with
      | Except.ok info2 => FillInfoString s cb extHook rest info2
      | Except.error e => Except.error e
    else FillInfoString s cb extHook rest (extHook field info)

/-- The fixed buffer capacity `FillFromBaseField` passes to the string-buffer
fill for each base type tag (none for tags that are not fixed string
buffers). -/
def cspftStringBufferCapacity (t : Int) : Option Nat :=
  if t = CSPFT_STRING_MAX_STRING_CHARS then some 1024
  else if t = CSPFT_STRING_MAX_QPATH then some 64
  else if t = CSPFT_STRING_MAX_OSPATH then some 256
  else none

/-- A concrete structure instance used by the witnesses: an effect pointer
at offset 0, a null effect pointer at offset 8, and a NUL-terminated inline
character buffer at offset 16. -/
def exStructure : Structure := fun off =>
  if off = 0 then StoredValue.fxPtr (some { name := "fx_smoke" })
  else if off = 8 then StoredValue.fxPtr none
  else if off = 16 then
    StoredValue.charBuf ['w', 'e', 'a', 'p', Char.ofNat 0, 'x']
  else StoredValue.undef

/-- A script-string callback used by the witnesses. -/
def exScriptStringCallback : Nat → String := fun _ => ""

end InfoStringConv

namespace MenuStatement

/- ===== Spec-side depth accounting for the matching-close rule ===== -/

/-- Depth contribution of one entry under the matching-close rule as the
claim states it: a left parenthesis or a virtual-function operator (opcode
at or above the named-operator count) counts +1, a right parenthesis -1,
everything else 0. -/
def entryDepthDelta (e : ExpressionEntry) : Int :=
  match e with
  | ExpressionEntry.operatorEntry o =>
    if o = OP_LEFTPAREN ∨ OP_COUNT ≤ o then 1
    else if o = OP_RIGHTPAREN then -1
    else 0
  | ExpressionEntry.operandEntry _ => 0

/-- Whether an entry is a right-parenthesis operator. -/
def entryIsRightParen (e : ExpressionEntry) : Bool :=
  match e with
  | ExpressionEntry.operatorEntry o => decide (o = OP_RIGHTPAREN)
  | ExpressionEntry.operandEntry _ => false

/-- Sum of the depth deltas of `n` consecutive entries starting at `a`. -/
def sumDeltasLen (stmt : Statement_s) (a : Nat) : Nat → Int
  | 0 => 0
  | n + 1 => entryDepthDelta (entryAt stmt a) + sumDeltasLen stmt (a + 1) n

/-- Sum of the depth deltas of the entries at positions in `[a, b)`. -/
def sumDeltas (stmt : Statement_s) (a b : Nat) : Int :=
  sumDeltasLen stmt a (b - a)

/-- The scan result position `r` for an opening at `p` is characterized by
the claim's matching-close rule: either `r` is inside the array, is a
right parenthesis, and is the first position at which the depth (seeded at 1
one past the opening) reaches 0, or `r` is the end of the array and the
depth never reaches 0 before it. -/
def ClosingParenCharacterization (stmt : Statement_s) (p : Nat) : Prop :=
  let r := FindStatementClosingParenthesis stmt p
  (p + 1 ≤ r ∧ r ≤ statementEnd stmt)
  ∧ (r < statementEnd stmt →
      entryIsRightParen (entryAt stmt r) = true
      ∧ 1 + sumDeltas stmt (p + 1) (r + 1) = 0
      ∧ ∀ q, p + 1 ≤ q → q < r → 1 + sumDeltas stmt (p + 1) (q + 1) ≠ 0)
  ∧ (r = statementEnd stmt →
      ∀ q, p + 1 ≤ q → q < statementEnd stmt →
        1 + sumDeltas stmt (p + 1) (q + 1) ≠ 0)

/- ===== Concrete statements used as witnesses and counterexamples ===== -/

/-- The claim's first matching-close example: `[OP(+), OP(RIGHTPAREN)]`. -/
def exPlusCloseStatement : Statement_s :=
  { numEntries := 2
    entries := [ExpressionEntry.operatorEntry OP_ADD,
                ExpressionEntry.operatorEntry OP_RIGHTPAREN]
    supportingData := none }

/-- The claim's second matching-close example: an extra nested left
parenthesis before the first right parenthesis. -/
def exNestedParenStatement : Statement_s :=
  { numEntries := 4
    entries := [ExpressionEntry.operatorEntry OP_ADD,
                ExpressionEntry.operatorEntry OP_LEFTPAREN,
                ExpressionEntry.operatorEntry OP_RIGHTPAREN,
                ExpressionEntry.operatorEntry OP_RIGHTPAREN]
    supportingData := none }

/-- A virtual function call (opcode 27, the `"int"` table entry) applied to
two operands separated by an explicit comma entry, closed by a right
parenthesis. -/
def exVirtualCallStatement : Statement_s :=
  { numEntries := 5
    entries := [ExpressionEntry.operatorEntry 27,
                ExpressionEntry.operandEntry (OperandValue.intVal 1),
                ExpressionEntry.operatorEntry OP_COMMA,
                ExpressionEntry.operandEntry (OperandValue.intVal 2),
                ExpressionEntry.operatorEntry OP_RIGHTPAREN]
    supportingData := none }

/-- A static-dvar accessor opcode (23) directly followed by its closing
right parenthesis. -/
def exStaticDvarBareStatement : Statement_s :=
  { numEntries := 2
    entries := [ExpressionEntry.operatorEntry 23,
                ExpressionEntry.operatorEntry OP_RIGHTPAREN]
    supportingData := none }

/-- Supporting data holding one static dvar named "cg_fov" and a two-entry
function table with handles 10 and 20. -/
def exSupportingData : ExpressionSupportingData :=
  { uifunctions := { totalFunctions := 2, functions := some [10, 20] }
    staticDvarList := { numStaticDvars := 1
                        staticDvars := some [some { dvarName := some "cg_fov" }] } }

/-- A `dvarint` accessor whose operand indexes past the one-entry static
dvar table. -/
def exDvarOutOfRangeStatement : Statement_s :=
  { numEntries := 3
    entries := [ExpressionEntry.operatorEntry 23,
                ExpressionEntry.operandEntry (OperandValue.intVal 5),
                ExpressionEntry.operatorEntry OP_RIGHTPAREN]
    supportingData := some exSupportingData }

/-- A `dvarint` accessor whose operand indexes the static dvar table in
range. -/
def exDvarInRangeStatement : Statement_s :=
  { numEntries := 3
    entries := [ExpressionEntry.operatorEntry 23,
                ExpressionEntry.operandEntry (OperandValue.intVal 0),
                ExpressionEntry.operatorEntry OP_RIGHTPAREN]
    supportingData := some exSupportingData }

/-- A function operand whose handle (20) occurs at index 1 of the
supporting function table. -/
def exFuncFoundStatement : Statement_s :=
  { numEntries := 1
    entries := [ExpressionEntry.operandEntry (OperandValue.functionVal 20)]
    supportingData := some exSupportingData }

/-- A function operand whose handle (77) does not occur in the supporting
function table. -/
def exFuncMissingStatement : Statement_s :=
  { numEntries := 1
    entries := [ExpressionEntry.operandEntry (OperandValue.functionVal 77)]
    supportingData := some exSupportingData }

/-- A statement whose first entry is an explicit left parenthesis. -/
def exLeftParenFirstStatement : Statement_s :=
  { numEntries := 3
    entries := [ExpressionEntry.operatorEntry OP_LEFTPAREN,
                ExpressionEntry.operandEntry (OperandValue.intVal 1),
                ExpressionEntry.operatorEntry OP_RIGHTPAREN]
    supportingData := none }

/-- A statement with a negative entry count. -/
def exNegativeCountStatement : Statement_s :=
  { numEntries := -1
    entries := []
    supportingData := none }

end MenuStatement

namespace MenuStatement

/- ===== Helper lemmas ===== -/

/-- `firstEntryIsLeftParen` agrees with the claim's phrasing of the
condition. -/
theorem firstEntryIsLeftParen_iff (stv : Statement_s) :
    firstEntryIsLeftParen stv = true ↔
      (entryAt stv 0 = ExpressionEntry.operatorEntry OP_LEFTPAREN ∧
        1 ≤ statementEnd stv) := by
  unfold firstEntryIsLeftParen
  cases h : entryAt stv 0 with
  | operatorEntry o =>
    simp only [Bool.and_eq_true, decide_eq_true_eq]
    constructor
    · rintro ⟨h1, h2⟩
      exact ⟨by rw [h2], h1⟩
    · rintro ⟨h1, h2⟩
      injection h1 with h3
      exact ⟨h2, h3⟩
  | operandEntry v =>
    simp

end MenuStatement

namespace MenuStatement

/-- C3: for a statement serialized in boolean-guard mode the rendered
property text is the key followed by the literal keyword `when`, then a
space unless the statement's first entry is an explicit left-parenthesis
operator, then the serialized entries; and in every mode the serialized
statement property line is suffixed with `;` and a newline. -/
theorem booleanGuard_when_keyword_and_terminator
    (indentText propertyKey : String) (stv : Statement_s)
    (h : 0 ≤ stv.numEntries) :
    (WriteStatementProperty indentText propertyKey (some stv) true
      = indentText ++ WriteKey propertyKey ++ "when"
        ++ (if entryAt stv 0 = ExpressionEntry.operatorEntry OP_LEFTPAREN ∧
              1 ≤ statementEnd stv then "" else " ")
        ++ WriteStatementEntryRange stv 0 (statementEnd stv) ++ ";\n")
    ∧ ∀ b : Bool, ∃ body : String,
        WriteStatementProperty indentText propertyKey (some stv) b
          = indentText ++ WriteKey propertyKey ++ body ++ ";\n" := by
  constructor
  · by_cases hb : firstEntryIsLeftParen stv = true
    · have hp := (firstEntryIsLeftParen_iff stv).mp hb
      simp only [WriteStatementProperty, if_neg (not_lt.mpr h), hb, if_true,
        if_pos hp]
      simp [String.append_assoc]
    · have hp : ¬ (entryAt stv 0 = ExpressionEntry.operatorEntry OP_LEFTPAREN ∧
          1 ≤ statementEnd stv) := fun hc => hb ((firstEntryIsLeftParen_iff stv).mpr hc)
      rw [Bool.not_eq_true] at hb
      simp only [WriteStatementProperty, if_neg (not_lt.mpr h), hb,
        Bool.false_eq_true, if_false, if_neg hp, if_true]
      simp [String.append_assoc]
  · intro b
    refine ⟨(if b then "when" ++ (if firstEntryIsLeftParen stv then "" else " ")
        else "") ++ WriteStatementEntryRange stv 0 (statementEnd stv), ?_⟩
    cases b <;>
      simp [WriteStatementProperty, if_neg (not_lt.mpr h), String.append_assoc]

/-- Witness for the boolean-guard theorem at a statement whose first entry
is an explicit left parenthesis. -/
theorem booleanGuard_when_keyword_and_terminator_witness :
    (0 : Int) ≤ exLeftParenFirstStatement.numEntries ∧
    WriteStatementProperty "" "visible" (some exLeftParenFirstStatement) true
      = "" ++ WriteKey "visible" ++ "when"
        ++ (if entryAt exLeftParenFirstStatement 0
              = ExpressionEntry.operatorEntry OP_LEFTPAREN ∧
              1 ≤ statementEnd exLeftParenFirstStatement then "" else " ")
        ++ WriteStatementEntryRange exLeftParenFirstStatement 0
            (statementEnd exLeftParenFirstStatement) ++ ";\n" :=
  ⟨by decide,
   (booleanGuard_when_keyword_and_terminator "" "visible"
     exLeftParenFirstStatement (by decide)).1⟩

/-- C10: a null statement pointer or a negative entry count produces no
output at all from `WriteStatementProperty` (no key, no `when`, no
terminator). -/
theorem nullOrNegativeStatement_writes_nothing :
    (∀ (indentText propertyKey : String) (b : Bool),
      WriteStatementProperty indentText propertyKey none b = "")
    ∧ ∀ (indentText propertyKey : String) (stv : Statement_s) (b : Bool),
        stv.numEntries < 0 →
        WriteStatementProperty indentText propertyKey (some stv) b = "" := by
  constructor
  · intro indentText propertyKey b
    rfl
  · intro indentText propertyKey stv b hneg
    simp [WriteStatementProperty, hneg]

/-- Witness: a statement with entry count -1 produces no output. -/
theorem nullOrNegativeStatement_writes_nothing_witness :
    exNegativeCountStatement.numEntries < 0 ∧
    WriteStatementProperty "  " "visible" (some exNegativeCountStatement) true
      = "" :=
  ⟨by decide,
   nullOrNegativeStatement_writes_nothing.2 "  " "visible"
     exNegativeCountStatement true (by decide)⟩

end MenuStatement

namespace InfoStringConv

/-- C6: for every resource-pointer field class (effect, model, material,
phys preset, tracer), a non-null pointer at the field's offset sets the
field's key to the referenced resource's own name, and a null pointer sets
the key to the empty string rather than omitting it. -/
theorem resourcePointerFields_emit_name_or_empty :
    (∀ (s : Structure) (cb : Nat → String) (field : cspField_t)
        (info : InfoString) (v : Option FxEffectDef),
      field.iFieldType = CSPFT_FX → s field.iOffset = StoredValue.fxPtr v →
      FillFromBaseField s cb field info
        = Except.ok (SetValueForKey info field.szName
            (match v with | some fx => fx.name | none => "")))
    ∧ (∀ (s : Structure) (cb : Nat → String) (field : cspField_t)
        (info : InfoString) (v : Option XModel),
      field.iFieldType = CSPFT_XMODEL → s field.iOffset = StoredValue.modelPtr v →
      FillFromBaseField s cb field info
        = Except.ok (SetValueForKey info field.szName
            (match v with | some model => model.name | none => "")))
    ∧ (∀ (s : Structure) (cb : Nat → String) (field : cspField_t)
        (info : InfoString) (v : Option Material),
      (field.iFieldType = CSPFT_MATERIAL ∨ field.iFieldType = CSPFT_MATERIAL_STREAM) →
      s field.iOffset = StoredValue.materialPtr v →
      FillFromBaseField s cb field info
        = Except.ok (SetValueForKey info field.szName
            (match v with | some material => material.info.name | none => "")))
    ∧ (∀ (s : Structure) (cb : Nat → String) (field : cspField_t)
        (info : InfoString) (v : Option PhysPreset),
      field.iFieldType = CSPFT_PHYS_PRESET →
      s field.iOffset = StoredValue.physPresetPtr v →
      FillFromBaseField s cb field info
        = Except.ok (SetValueForKey info field.szName
            (match v with | some physPreset => physPreset.name | none => "")))
    ∧ (∀ (s : Structure) (cb : Nat → String) (field : cspField_t)
        (info : InfoString) (v : Option TracerDef),
      field.iFieldType = CSPFT_TRACER → s field.iOffset = StoredValue.tracerPtr v →
      FillFromBaseField s cb field info
        = Except.ok (SetValueForKey info field.szName
            (match v with | some tracer => tracer.name | none => ""))) := by
  refine ⟨?_, ?_, ?_, ?_, ?_⟩
  all_goals
    intro s cb field info v htag hread
  · obtain ⟨nm, off, t⟩ := field
    simp only [cspField_t.mk.injEq] at htag ⊢
    simp only at htag hread
    subst htag
    norm_num [FillFromBaseField, CSPFT_STRING, CSPFT_STRING_MAX_STRING_CHARS,
      CSPFT_STRING_MAX_QPATH, CSPFT_STRING_MAX_OSPATH, CSPFT_INT, CSPFT_UINT,
      CSPFT_BOOL, CSPFT_QBOOLEAN, CSPFT_FLOAT, CSPFT_MILLISECONDS, CSPFT_FX,
      readFxPtr, hread]
    cases v <;> simp
  · obtain ⟨nm, off, t⟩ := field
    simp only at htag hread
    subst htag
    norm_num [FillFromBaseField, CSPFT_STRING, CSPFT_STRING_MAX_STRING_CHARS,
      CSPFT_STRING_MAX_QPATH, CSPFT_STRING_MAX_OSPATH, CSPFT_INT, CSPFT_UINT,
      CSPFT_BOOL, CSPFT_QBOOLEAN, CSPFT_FLOAT, CSPFT_MILLISECONDS, CSPFT_FX,
      CSPFT_XMODEL, readModelPtr, hread]
    cases v <;> simp
  · obtain ⟨nm, off, t⟩ := field
    simp only at htag hread
    rcases htag with htag | htag <;>
    · subst htag
      norm_num [FillFromBaseField, CSPFT_STRING, CSPFT_STRING_MAX_STRING_CHARS,
        CSPFT_STRING_MAX_QPATH, CSPFT_STRING_MAX_OSPATH, CSPFT_INT, CSPFT_UINT,
        CSPFT_BOOL, CSPFT_QBOOLEAN, CSPFT_FLOAT, CSPFT_MILLISECONDS, CSPFT_FX,
        CSPFT_XMODEL, CSPFT_MATERIAL, CSPFT_MATERIAL_STREAM, readMaterialPtr,
        hread]
      cases v <;> simp
  · obtain ⟨nm, off, t⟩ := field
    simp only at htag hread
    subst htag
    norm_num [FillFromBaseField, CSPFT_STRING, CSPFT_STRING_MAX_STRING_CHARS,
      CSPFT_STRING_MAX_QPATH, CSPFT_STRING_MAX_OSPATH, CSPFT_INT, CSPFT_UINT,
      CSPFT_BOOL, CSPFT_QBOOLEAN, CSPFT_FLOAT, CSPFT_MILLISECONDS, CSPFT_FX,
      CSPFT_XMODEL, CSPFT_MATERIAL, CSPFT_MATERIAL_STREAM, CSPFT_PHYS_PRESET,
      readPhysPresetPtr, hread]
    cases v <;> simp
  · obtain ⟨nm, off, t⟩ := field
    simp only at htag hread
    subst htag
    norm_num [FillFromBaseField, CSPFT_STRING, CSPFT_STRING_MAX_STRING_CHARS,
      CSPFT_STRING_MAX_QPATH, CSPFT_STRING_MAX_OSPATH, CSPFT_INT, CSPFT_UINT,
      CSPFT_BOOL, CSPFT_QBOOLEAN, CSPFT_FLOAT, CSPFT_MILLISECONDS, CSPFT_FX,
      CSPFT_XMODEL, CSPFT_MATERIAL, CSPFT_MATERIAL_STREAM, CSPFT_PHYS_PRESET,
      CSPFT_SCRIPT_STRING, CSPFT_TRACER, readTracerPtr, hread]
    cases v <;> simp

end InfoStringConv

namespace InfoStringConv

/-- Witness: an effect field with a non-null pointer receives the effect's
name and one with a null pointer receives the empty string. -/
theorem resourcePointerFields_emit_name_or_empty_witness :
    ((⟨"effect", 0, CSPFT_FX⟩ : cspField_t).iFieldType = CSPFT_FX ∧
      exStructure 0 = StoredValue.fxPtr (some { name := "fx_smoke" }) ∧
      FillFromBaseField exStructure exScriptStringCallback
        ⟨"effect", 0, CSPFT_FX⟩ []
        = Except.ok (SetValueForKey [] "effect" "fx_smoke"))
    ∧ ((⟨"effect", 8, CSPFT_FX⟩ : cspField_t).iFieldType = CSPFT_FX ∧
      exStructure 8 = StoredValue.fxPtr none ∧
      FillFromBaseField exStructure exScriptStringCallback
        ⟨"effect", 8, CSPFT_FX⟩ []
        = Except.ok (SetValueForKey [] "effect" "")) := by
  refine ⟨⟨rfl, by decide, ?_⟩, ⟨rfl, by decide, ?_⟩⟩
  · exact resourcePointerFields_emit_name_or_empty.1 exStructure
      exScriptStringCallback ⟨"effect", 0, CSPFT_FX⟩ []
      (some { name := "fx_smoke" }) rfl (by decide)
  · exact resourcePointerFields_emit_name_or_empty.1 exStructure
      exScriptStringCallback ⟨"effect", 8, CSPFT_FX⟩ [] none rfl (by decide)

/-- C7: a field type tag outside the base range that is not dispatched to
the extension hook is a fatal assertion failure: `FillFromBaseField` aborts
on any tag outside the recognized base cases, and `FillInfoString` aborts on
any negative tag before dispatching it. -/
theorem unrecognizedFieldTypeTag_asserts :
    (∀ (s : Structure) (cb : Nat → String) (field : cspField_t)
        (info : InfoString),
      field.iFieldType < 0 ∨ CSPFT_NUM_BASE_FIELD_TYPES ≤ field.iFieldType →
      FillFromBaseField s cb field info = Except.error ())
    ∧ ∀ (s : Structure) (cb : Nat → String)
        (extHook : cspField_t → InfoString → InfoString)
        (rest : List cspField_t) (info : InfoString) (field : cspField_t),
        field.iFieldType < 0 →
        FillInfoString s cb extHook (field :: rest) info = Except.error () := by
  constructor
  · intro s cb field info htag
    unfold FillFromBaseField
    rw [if_neg, if_neg, if_neg, if_neg, if_neg, if_neg, if_neg, if_neg,
      if_neg, if_neg, if_neg, if_neg, if_neg, if_neg, if_neg, if_neg, if_neg]
    all_goals
      simp only [CSPFT_STRING, CSPFT_STRING_MAX_STRING_CHARS,
        CSPFT_STRING_MAX_QPATH, CSPFT_STRING_MAX_OSPATH, CSPFT_INT,
        CSPFT_UINT, CSPFT_BOOL, CSPFT_QBOOLEAN, CSPFT_FLOAT,
        CSPFT_MILLISECONDS, CSPFT_FX, CSPFT_XMODEL, CSPFT_MATERIAL,
        CSPFT_MATERIAL_STREAM, CSPFT_PHYS_PRESET, CSPFT_SCRIPT_STRING,
        CSPFT_TRACER, CSPFT_SOUND_ALIAS_ID,
        CSPFT_NUM_BASE_FIELD_TYPES] at htag ⊢
      omega
  · intro s cb extHook rest info field htag
    unfold FillInfoString
    rw [if_pos htag]

/-- Witness: the base-count tag 18 aborts in `FillFromBaseField`, and a
schema whose head field carries tag -1 aborts in `FillInfoString`. -/
theorem unrecognizedFieldTypeTag_asserts_witness :
    (CSPFT_NUM_BASE_FIELD_TYPES ≤
        (⟨"bad", 0, CSPFT_NUM_BASE_FIELD_TYPES⟩ : cspField_t).iFieldType ∧
      FillFromBaseField exStructure exScriptStringCallback
        ⟨"bad", 0, CSPFT_NUM_BASE_FIELD_TYPES⟩ [] = Except.error ())
    ∧ ((⟨"bad", 0, -1⟩ : cspField_t).iFieldType < 0 ∧
      FillInfoString exStructure exScriptStringCallback (fun _ info => info)
        [⟨"bad", 0, -1⟩] [] = Except.error ()) :=
  ⟨⟨by decide,
    unrecognizedFieldTypeTag_asserts.1 exStructure exScriptStringCallback
      ⟨"bad", 0, CSPFT_NUM_BASE_FIELD_TYPES⟩ [] (Or.inr (by decide))⟩,
   ⟨by decide,
    unrecognizedFieldTypeTag_asserts.2 exStructure exScriptStringCallback
      (fun _ info => info) [] [] ⟨"bad", 0, -1⟩ (by decide)⟩⟩

end InfoStringConv

namespace InfoStringConv

/-- C8 counterexample: the fixed-string-buffer handling does not have
exactly two capacity classes — no pair of capacities covers all fixed
buffer field types, because the converter uses the three distinct
capacities 1024, 64 and 256. -/
theorem stringBufferCapacities_not_two_classes :
    ¬ ∃ a b : Nat, ∀ (t : Int) (n : Nat),
        cspftStringBufferCapacity t = some n → n = a ∨ n = b := by
  rintro ⟨a, b, h⟩
  have h1 := h CSPFT_STRING_MAX_STRING_CHARS 1024 (by decide)
  have h2 := h CSPFT_STRING_MAX_QPATH 64 (by decide)
  have h3 := h CSPFT_STRING_MAX_OSPATH 256 (by decide)
  omega

/-- C8 amended: the fixed-string-buffer handling has exactly three fixed
capacity classes — 1024 (`MAX_STRING_CHARS`), 64 (`MAX_QPATH`) and 256
(`MAX_OSPATH`) — and for every fixed-string-buffer field the converter
dispatches to the string-buffer fill with that class's capacity `n`, which
reads up to `n` characters from the inline buffer at the field's offset. -/
theorem stringBufferCapacities_three_classes :
    (cspftStringBufferCapacity CSPFT_STRING_MAX_STRING_CHARS = some 1024
      ∧ cspftStringBufferCapacity CSPFT_STRING_MAX_QPATH = some 64
      ∧ cspftStringBufferCapacity CSPFT_STRING_MAX_OSPATH = some 256
      ∧ ∀ t : Int, cspftStringBufferCapacity t ≠ none →
          t = CSPFT_STRING_MAX_STRING_CHARS ∨ t = CSPFT_STRING_MAX_QPATH ∨
          t = CSPFT_STRING_MAX_OSPATH)
    ∧ (∀ (s : Structure) (cb : Nat → String) (field : cspField_t)
          (info : InfoString) (n : Nat),
        cspftStringBufferCapacity field.iFieldType = some n →
        FillFromBaseField s cb field info
          = Except.ok (FillFromStringBuffer s field.szName field.iOffset n info))
    ∧ ∀ (s : Structure) (key : String) (off len : Nat) (info : InfoString)
        (cs : List Char),
        s off = StoredValue.charBuf cs →
        FillFromStringBuffer s key off len info
          = (if bufString (cs.take len) ≠ "" then
              SetValueForKey info key (bufString (cs.take len)) else info) := by
  refine ⟨⟨by decide, by decide, by decide, ?_⟩, ?_, ?_⟩
  · intro t ht
    unfold cspftStringBufferCapacity at ht
    by_cases h1 : t = CSPFT_STRING_MAX_STRING_CHARS
    · exact Or.inl h1
    by_cases h2 : t = CSPFT_STRING_MAX_QPATH
    · exact Or.inr (Or.inl h2)
    by_cases h3 : t = CSPFT_STRING_MAX_OSPATH
    · exact Or.inr (Or.inr h3)
    rw [if_neg h1, if_neg h2, if_neg h3] at ht
    exact absurd rfl ht
  · intro s cb field info n hcap
    obtain ⟨nm, off, t⟩ := field
    simp only at hcap ⊢
    unfold cspftStringBufferCapacity at hcap
    by_cases h1 : t = CSPFT_STRING_MAX_STRING_CHARS
    · subst h1
      rw [if_pos rfl] at hcap
      injection hcap with hn
      subst hn
      norm_num [FillFromBaseField, CSPFT_STRING, CSPFT_STRING_MAX_STRING_CHARS]
    by_cases h2 : t = CSPFT_STRING_MAX_QPATH
    · subst h2
      rw [if_neg h1, if_pos rfl] at hcap
      injection hcap with hn
      subst hn
      norm_num [FillFromBaseField, CSPFT_STRING, CSPFT_STRING_MAX_STRING_CHARS,
        CSPFT_STRING_MAX_QPATH]
    by_cases h3 : t = CSPFT_STRING_MAX_OSPATH
    · subst h3
      rw [if_neg h1, if_neg h2, if_pos rfl] at hcap
      injection hcap with hn
      subst hn
      norm_num [FillFromBaseField, CSPFT_STRING, CSPFT_STRING_MAX_STRING_CHARS,
        CSPFT_STRING_MAX_QPATH, CSPFT_STRING_MAX_OSPATH]
    · rw [if_neg h1, if_neg h2, if_neg h3] at hcap
      exact absurd hcap (by simp)
  · intro s key off len info cs hread
    unfold FillFromStringBuffer readCharBuf
    rw [hread]

/-- Witness: a `MAX_QPATH` field dispatches with capacity 64, and the
string-buffer fill on the concrete inline buffer reads up to the NUL within
the capacity. -/
theorem stringBufferCapacities_three_classes_witness :
    (cspftStringBufferCapacity
        (⟨"szInternalName", 16, CSPFT_STRING_MAX_QPATH⟩ : cspField_t).iFieldType
      = some 64 ∧
      FillFromBaseField exStructure exScriptStringCallback
        ⟨"szInternalName", 16, CSPFT_STRING_MAX_QPATH⟩ []
        = Except.ok (FillFromStringBuffer exStructure "szInternalName" 16 64 []))
    ∧ (exStructure 16 = StoredValue.charBuf ['w', 'e', 'a', 'p', Char.ofNat 0, 'x'] ∧
      FillFromStringBuffer exStructure "szInternalName" 16 64 []
        = (if bufString ((['w', 'e', 'a', 'p', Char.ofNat 0, 'x'].take 64)) ≠ "" then
            SetValueForKey [] "szInternalName"
              (bufString (['w', 'e', 'a', 'p', Char.ofNat 0, 'x'].take 64))
          else [])) :=
  ⟨⟨by decide,
    stringBufferCapacities_three_classes.2.1 exStructure exScriptStringCallback
      ⟨"szInternalName", 16, CSPFT_STRING_MAX_QPATH⟩ [] 64 (by decide)⟩,
   ⟨by decide,
    stringBufferCapacities_three_classes.2.2 exStructure "szInternalName" 16 64
      [] ['w', 'e', 'a', 'p', Char.ofNat 0, 'x'] (by decide)⟩⟩

end InfoStringConv

namespace MenuStatement

/-- Peel the first entry off a delta sum over `[a, b)`. -/
theorem sumDeltas_head (stmt : Statement_s) (a b : Nat) (h : a < b) :
    sumDeltas stmt a b
      = entryDepthDelta (entryAt stmt a) + sumDeltas stmt (a + 1) b := by
  unfold sumDeltas
  have hba : b - a = (b - (a + 1)) + 1 := by omega
  rw [hba]
  rfl

/-- A delta sum over a single position. -/
theorem sumDeltas_single (stmt : Statement_s) (a : Nat) :
    sumDeltas stmt a (a + 1) = entryDepthDelta (entryAt stmt a) := by
  unfold sumDeltas
  have h : a + 1 - a = 1 := by omega
  rw [h]
  show entryDepthDelta (entryAt stmt a) + 0 = entryDepthDelta (entryAt stmt a)
  omega

/-- Invariant of the matching-close scan loop: starting at `pos` with a
positive running depth and enough iteration budget, the scan returns either
the first position at which the running depth reaches zero (necessarily a
right parenthesis) or, failing that, the end of the entry array. -/
theorem findClosingAux_spec (stmt : Statement_s) (rem : Nat) :
    ∀ (pos : Nat) (depth : Int),
      statementEnd stmt ≤ pos + rem → pos ≤ statementEnd stmt → 1 ≤ depth →
      (pos ≤ findClosingAux stmt (statementEnd stmt) rem pos depth
        ∧ findClosingAux stmt (statementEnd stmt) rem pos depth ≤ statementEnd stmt)
      ∧ (findClosingAux stmt (statementEnd stmt) rem pos depth < statementEnd stmt →
          entryIsRightParen
              (entryAt stmt (findClosingAux stmt (statementEnd stmt) rem pos depth))
            = true
          ∧ depth + sumDeltas stmt pos
              (findClosingAux stmt (statementEnd stmt) rem pos depth + 1) = 0
          ∧ ∀ q, pos ≤ q →
              q < findClosingAux stmt (statementEnd stmt) rem pos depth →
              depth + sumDeltas stmt pos (q + 1) ≠ 0)
      ∧ (findClosingAux stmt (statementEnd stmt) rem pos depth = statementEnd stmt →
          ∀ q, pos ≤ q → q < statementEnd stmt →
            depth + sumDeltas stmt pos (q + 1) ≠ 0) := by
  induction rem with
  | zero =>
    intro pos depth hrem hposle hdepth
    have hr : findClosingAux stmt (statementEnd stmt) 0 pos depth
        = statementEnd stmt := rfl
    rw [hr]
    exact ⟨⟨by omega, le_refl _⟩,
      fun hlt => absurd hlt (by omega),
      fun _ q hq1 hq2 => by omega⟩
  | succ rem ih =>
    intro pos depth hrem hposle hdepth
    by_cases hpos : pos < statementEnd stmt
    · cases hentry : entryAt stmt pos with
      | operatorEntry o =>
        by_cases hinc : o = OP_LEFTPAREN ∨ OP_COUNT ≤ o
        · have hr : findClosingAux stmt (statementEnd stmt) (rem + 1) pos depth
              = findClosingAux stmt (statementEnd stmt) rem (pos + 1) (depth + 1) := by
            simp only [findClosingAux, hentry]
            rw [if_pos hpos, if_pos hinc]
          have hdelta : entryDepthDelta (entryAt stmt pos) = 1 := by
            simp [entryDepthDelta, hentry, hinc]
          rw [hr]
          obtain ⟨⟨hb1, hb2⟩, hfound, hnone⟩ :=
            ih (pos + 1) (depth + 1) (by omega) (by omega) (by omega)
          refine ⟨⟨by omega, hb2⟩, ?_, ?_⟩
          · intro hlt
            obtain ⟨hrpar, hsum, hmin⟩ := hfound hlt
            refine ⟨hrpar, ?_, ?_⟩
            · rw [sumDeltas_head stmt pos _ (by omega), hdelta]
              omega
            · intro q hq1 hq2
              rcases Nat.eq_or_lt_of_le hq1 with hq | hq
              · rw [← hq, sumDeltas_single stmt pos, hdelta]
                omega
              · have hm := hmin q (by omega) hq2
                rw [sumDeltas_head stmt pos _ (by omega), hdelta]
                omega
          · intro hE q hq1 hq2
            rcases Nat.eq_or_lt_of_le hq1 with hq | hq
            · rw [← hq, sumDeltas_single stmt pos, hdelta]
              omega
            · have hm := hnone hE q (by omega) hq2
              rw [sumDeltas_head stmt pos _ (by omega), hdelta]
              omega
        · by_cases hrp : o = OP_RIGHTPAREN
          · have hdelta : entryDepthDelta (entryAt stmt pos) = -1 := by
              rw [hentry]
              simp only [entryDepthDelta]
              rw [if_neg hinc, if_pos hrp]
            by_cases hone : depth - 1 = 0
            · have hr : findClosingAux stmt (statementEnd stmt) (rem + 1) pos depth
                  = pos := by
                simp only [findClosingAux, hentry]
                rw [if_pos hpos, if_neg hinc, if_pos hrp,
                  if_pos (show (0 : Int) < depth by omega), if_pos hone]
              rw [hr]
              refine ⟨⟨le_refl _, by omega⟩, ?_, ?_⟩
              · intro _
                refine ⟨by simp [entryIsRightParen, hentry, hrp], ?_, ?_⟩
                · rw [sumDeltas_single stmt pos, hdelta]
                  omega
                · intro q hq1 hq2
                  omega
              · intro hE
                exact absurd hE (by omega)
            · have hr : findClosingAux stmt (statementEnd stmt) (rem + 1) pos depth
                  = findClosingAux stmt (statementEnd stmt) rem (pos + 1) (depth - 1) := by
                simp only [findClosingAux, hentry]
                rw [if_pos hpos, if_neg hinc, if_pos hrp,
                  if_pos (show (0 : Int) < depth by omega), if_neg hone]
              rw [hr]
              obtain ⟨⟨hb1, hb2⟩, hfound, hnone⟩ :=
                ih (pos + 1) (depth - 1) (by omega) (by omega) (by omega)
              refine ⟨⟨by omega, hb2⟩, ?_, ?_⟩
              · intro hlt
                obtain ⟨hrpar, hsum, hmin⟩ := hfound hlt
                refine ⟨hrpar, ?_, ?_⟩
                · rw [sumDeltas_head stmt pos _ (by omega), hdelta]
                  omega
                · intro q hq1 hq2
                  rcases Nat.eq_or_lt_of_le hq1 with hq | hq
                  · rw [← hq, sumDeltas_single stmt pos, hdelta]
                    omega
                  · have hm := hmin q (by omega) hq2
                    rw [sumDeltas_head stmt pos _ (by omega), hdelta]
                    omega
              · intro hE q hq1 hq2
                rcases Nat.eq_or_lt_of_le hq1 with hq | hq
                · rw [← hq, sumDeltas_single stmt pos, hdelta]
                  omega
                · have hm := hnone hE q (by omega) hq2
                  rw [sumDeltas_head stmt pos _ (by omega), hdelta]
                  omega
          · have hdelta : entryDepthDelta (entryAt stmt pos) = 0 := by
              simp [entryDepthDelta, hentry, hinc, hrp]
            have hr : findClosingAux stmt (statementEnd stmt) (rem + 1) pos depth
                = findClosingAux stmt (statementEnd stmt) rem (pos + 1) depth := by
              simp only [findClosingAux, hentry]
              rw [if_pos hpos, if_neg hinc, if_neg hrp]
            rw [hr]
            obtain ⟨⟨hb1, hb2⟩, hfound, hnone⟩ :=
              ih (pos + 1) depth (by omega) (by omega) (by omega)
            refine ⟨⟨by omega, hb2⟩, ?_, ?_⟩
            · intro hlt
              obtain ⟨hrpar, hsum, hmin⟩ := hfound hlt
              refine ⟨hrpar, ?_, ?_⟩
              · rw [sumDeltas_head stmt pos _ (by omega), hdelta]
                omega
              · intro q hq1 hq2
                rcases Nat.eq_or_lt_of_le hq1 with hq | hq
                · rw [← hq, sumDeltas_single stmt pos, hdelta]
                  omega
                · have hm := hmin q (by omega) hq2
                  rw [sumDeltas_head stmt pos _ (by omega), hdelta]
                  omega
            · intro hE q hq1 hq2
              rcases Nat.eq_or_lt_of_le hq1 with hq | hq
              · rw [← hq, sumDeltas_single stmt pos, hdelta]
                omega
              · have hm := hnone hE q (by omega) hq2
                rw [sumDeltas_head stmt pos _ (by omega), hdelta]
                omega
      | operandEntry v =>
        have hdelta : entryDepthDelta (entryAt stmt pos) = 0 := by
          simp [entryDepthDelta, hentry]
        have hr : findClosingAux stmt (statementEnd stmt) (rem + 1) pos depth
            = findClosingAux stmt (statementEnd stmt) rem (pos + 1) depth := by
          simp only [findClosingAux, hentry]
          rw [if_pos hpos]
        rw [hr]
        obtain ⟨⟨hb1, hb2⟩, hfound, hnone⟩ :=
          ih (pos + 1) depth (by omega) (by omega) (by omega)
        refine ⟨⟨by omega, hb2⟩, ?_, ?_⟩
        · intro hlt
          obtain ⟨hrpar, hsum, hmin⟩ := hfound hlt
          refine ⟨hrpar, ?_, ?_⟩
          · rw [sumDeltas_head stmt pos _ (by omega), hdelta]
            omega
          · intro q hq1 hq2
            rcases Nat.eq_or_lt_of_le hq1 with hq | hq
            · rw [← hq, sumDeltas_single stmt pos, hdelta]
              omega
            · have hm := hmin q (by omega) hq2
              rw [sumDeltas_head stmt pos _ (by omega), hdelta]
              omega
        · intro hE q hq1 hq2
          rcases Nat.eq_or_lt_of_le hq1 with hq | hq
          · rw [← hq, sumDeltas_single stmt pos, hdelta]
            omega
          · have hm := hnone hE q (by omega) hq2
            rw [sumDeltas_head stmt pos _ (by omega), hdelta]
            omega
    · have hpe : pos = statementEnd stmt := by omega
      have hr : findClosingAux stmt (statementEnd stmt) (rem + 1) pos depth
          = statementEnd stmt := by
        simp only [findClosingAux]
        rw [if_neg hpos]
      rw [hr]
      exact ⟨⟨by omega, le_refl _⟩,
        fun hlt => absurd hlt (by omega),
        fun _ q hq1 hq2 => by omega⟩

/-- Bounds of the closing-parenthesis scan: from a valid opening position
the match is strictly past the opening and at most the array end. -/
theorem findClose_bounds (stmt : Statement_s) (p : Nat)
    (hp : p < statementEnd stmt) :
    p + 1 ≤ FindStatementClosingParenthesis stmt p ∧
      FindStatementClosingParenthesis stmt p ≤ statementEnd stmt :=
  (findClosingAux_spec stmt (statementEnd stmt) (p + 1) 1
    (by omega) (by omega) (by omega)).1

end MenuStatement

namespace MenuStatement

/-- C1: for every statement and opening position inside the entry array,
the matching-close scan returns the first position past the opening at
which the depth counter (seeded at 1, +1 on left parens and
virtual-function opcodes, -1 on right parens) reaches 0 — necessarily a
right-parenthesis entry — or the end of the entry array when the depth
never reaches 0; on the spec's two examples it returns position 1 for
`[OP(+), OP(RIGHTPAREN)]` and skips the first right paren of the nested
example to match the second at position 3. -/
theorem matchingCloseScan_characterized :
    (∀ (stmt : Statement_s) (p : Nat), p < statementEnd stmt →
      ClosingParenCharacterization stmt p)
    ∧ FindStatementClosingParenthesis exPlusCloseStatement 0 = 1
    ∧ FindStatementClosingParenthesis exNestedParenStatement 0 = 3 := by
  refine ⟨?_, by decide, by decide⟩
  intro stmt p hp
  unfold ClosingParenCharacterization
  show (p + 1 ≤ FindStatementClosingParenthesis stmt p ∧ _) ∧ _ ∧ _
  unfold FindStatementClosingParenthesis
  exact findClosingAux_spec stmt (statementEnd stmt) (p + 1) 1
    (by omega) (by omega) (by omega)

/-- Witness: the characterization instantiated on the spec's first example
statement. -/
theorem matchingCloseScan_characterized_witness :
    0 < statementEnd exPlusCloseStatement ∧
    ClosingParenCharacterization exPlusCloseStatement 0 :=
  ⟨by decide, matchingCloseScan_characterized.1 exPlusCloseStatement 0 (by decide)⟩

end MenuStatement

namespace MenuStatement

/-- The range loop on an exhausted range emits nothing, at any fuel. -/
theorem writeRangeF_out (stmt : Statement_s) (f p e : Nat) (sn : Bool)
    (hpe : ¬ p < e) : writeRangeF f stmt p e sn = "" := by
  cases f with
  | zero => rfl
  | succ f =>
    simp only [writeRangeF]
    rw [if_neg hpe]

/-- Loop step on an operand entry: render the operand, advance the cursor by
one, owe a space. -/
theorem writeRangeF_step_operand (stmt : Statement_s) (f p e : Nat)
    (sn : Bool) (v : OperandValue) (hpe : p < e)
    (hentry : entryAt stmt p = ExpressionEntry.operandEntry v) :
    writeRangeF (f + 1) stmt p e sn
      = writeOperandText stmt p sn ++ writeRangeF f stmt (p + 1) e true := by
  simp only [writeRangeF, hentry]
  rw [if_pos hpe]

/-- Loop step on an explicit left parenthesis: recurse into the bracketed
range up to the matching close and continue one past it. -/
theorem writeRangeF_step_leftParen (stmt : Statement_s) (f p e : Nat)
    (sn : Bool) (o : Int) (hpe : p < e)
    (hentry : entryAt stmt p = ExpressionEntry.operatorEntry o)
    (ho : o = OP_LEFTPAREN) :
    writeRangeF (f + 1) stmt p e sn
      = (if sn ∧ o ≠ OP_COMMA then " " else "") ++ "("
        ++ writeRangeF f stmt (p + 1) (FindStatementClosingParenthesis stmt p) false
        ++ ")"
        ++ writeRangeF f stmt (FindStatementClosingParenthesis stmt p + 1) e true := by
  simp only [writeRangeF, hentry]
  rw [if_pos hpe, if_pos ho]

/-- Loop step on a static-dvar accessor opcode: render the accessor keyword
and the synthesized parenthesized dvar text, then continue one past the
matching close. -/
theorem writeRangeF_step_staticDvar (stmt : Statement_s) (f p e : Nat)
    (sn : Bool) (o : Int) (hpe : p < e)
    (hentry : entryAt stmt p = ExpressionEntry.operatorEntry o)
    (hlo : ¬ o = OP_LEFTPAREN)
    (hsd : EXP_FUNC_STATIC_DVAR_INT ≤ o ∧ o ≤ EXP_FUNC_STATIC_DVAR_STRING) :
    writeRangeF (f + 1) stmt p e sn
      = (if sn ∧ o ≠ OP_COMMA then " " else "") ++ staticDvarAccessorName o ++ "("
        ++ (if FindStatementClosingParenthesis stmt p + 1 ≠ p then
              staticDvarValueText stmt p else "")
        ++ ")"
        ++ writeRangeF f stmt (FindStatementClosingParenthesis stmt p + 1) e true := by
  simp only [writeRangeF, hentry]
  rw [if_pos hpe, if_neg hlo, if_pos hsd]

/-- Loop step on a virtual-function opcode (at or above the named-operator
count, not a static-dvar accessor): render the table name, recurse into the
implied parenthesized range, continue one past the matching close. -/
theorem writeRangeF_step_virtualFn (stmt : Statement_s) (f p e : Nat)
    (sn : Bool) (o : Int) (hpe : p < e)
    (hentry : entryAt stmt p = ExpressionEntry.operatorEntry o)
    (hlo : ¬ o = OP_LEFTPAREN)
    (hsd : ¬ (EXP_FUNC_STATIC_DVAR_INT ≤ o ∧ o ≤ EXP_FUNC_STATIC_DVAR_STRING))
    (hcnt : OP_COUNT ≤ o) :
    writeRangeF (f + 1) stmt p e sn
      = (if sn ∧ o ≠ OP_COMMA then " " else "") ++ operatorNameText o ++ "("
        ++ writeRangeF f stmt (p + 1) (FindStatementClosingParenthesis stmt p) false
        ++ ")"
        ++ writeRangeF f stmt (FindStatementClosingParenthesis stmt p + 1) e
            (decide (o ≠ OP_NEG)) := by
  simp only [writeRangeF, hentry]
  rw [if_pos hpe, if_neg hlo, if_neg hsd, if_pos hcnt]

/-- Loop step on a named operator below the count: render the table token
and advance the cursor by one. -/
theorem writeRangeF_step_namedOp (stmt : Statement_s) (f p e : Nat)
    (sn : Bool) (o : Int) (hpe : p < e)
    (hentry : entryAt stmt p = ExpressionEntry.operatorEntry o)
    (hlo : ¬ o = OP_LEFTPAREN)
    (hsd : ¬ (EXP_FUNC_STATIC_DVAR_INT ≤ o ∧ o ≤ EXP_FUNC_STATIC_DVAR_STRING))
    (hcnt : ¬ OP_COUNT ≤ o) :
    writeRangeF (f + 1) stmt p e sn
      = (if sn ∧ o ≠ OP_COMMA then " " else "") ++ operatorNameText o
        ++ writeRangeF f stmt (p + 1) e (decide (o ≠ OP_NEG)) := by
  simp only [writeRangeF, hentry]
  rw [if_pos hpe, if_neg hlo, if_neg hsd, if_neg hcnt]

/-- Fuel stability of the range loop: as long as the range end stays inside
the entry array, any fuel of at least `statementEnd + 1 - currentPos`
produces the same text — the loop ends after finitely many iterations and
extra budget never changes the output. -/
theorem writeRangeF_fuel_stable (stmt : Statement_s) :
    ∀ (k f1 f2 p e : Nat) (sn : Bool),
      e ≤ statementEnd stmt →
      statementEnd stmt + 1 - p ≤ k →
      statementEnd stmt + 1 - p ≤ f1 →
      statementEnd stmt + 1 - p ≤ f2 →
      writeRangeF f1 stmt p e sn = writeRangeF f2 stmt p e sn := by
  intro k
  induction k using Nat.strong_induction_on with
  | _ k ih =>
    intro f1 f2 p e sn he hk h1 h2
    by_cases hpe : p < e
    · have hpE : p < statementEnd stmt := lt_of_lt_of_le hpe he
      obtain ⟨f1', rfl⟩ : ∃ m, f1 = m + 1 := ⟨f1 - 1, by omega⟩
      obtain ⟨f2', rfl⟩ : ∃ m, f2 = m + 1 := ⟨f2 - 1, by omega⟩
      cases hentry : entryAt stmt p with
      | operandEntry v =>
        rw [writeRangeF_step_operand stmt f1' p e sn v hpe hentry,
          writeRangeF_step_operand stmt f2' p e sn v hpe hentry,
          ih (statementEnd stmt + 1 - (p + 1)) (by omega) f1' f2' (p + 1) e true
            he (by omega) (by omega) (by omega)]
      | operatorEntry o =>
        obtain ⟨hc1, hc2⟩ := findClose_bounds stmt p hpE
        by_cases hlo : o = OP_LEFTPAREN
        · rw [writeRangeF_step_leftParen stmt f1' p e sn o hpe hentry hlo,
            writeRangeF_step_leftParen stmt f2' p e sn o hpe hentry hlo,
            ih (statementEnd stmt + 1 - (p + 1)) (by omega) f1' f2' (p + 1)
              (FindStatementClosingParenthesis stmt p) false hc2 (by omega)
              (by omega) (by omega),
            ih (statementEnd stmt + 1 - (FindStatementClosingParenthesis stmt p + 1))
              (by omega) f1' f2' (FindStatementClosingParenthesis stmt p + 1) e true
              he (by omega) (by omega) (by omega)]
        · by_cases hsd : EXP_FUNC_STATIC_DVAR_INT ≤ o ∧ o ≤ EXP_FUNC_STATIC_DVAR_STRING
          · rw [writeRangeF_step_staticDvar stmt f1' p e sn o hpe hentry hlo hsd,
              writeRangeF_step_staticDvar stmt f2' p e sn o hpe hentry hlo hsd,
              ih (statementEnd stmt + 1 - (FindStatementClosingParenthesis stmt p + 1))
                (by omega) f1' f2' (FindStatementClosingParenthesis stmt p + 1) e true
                he (by omega) (by omega) (by omega)]
          · by_cases hcnt : OP_COUNT ≤ o
            · rw [writeRangeF_step_virtualFn stmt f1' p e sn o hpe hentry hlo hsd hcnt,
                writeRangeF_step_virtualFn stmt f2' p e sn o hpe hentry hlo hsd hcnt,
                ih (statementEnd stmt + 1 - (p + 1)) (by omega) f1' f2' (p + 1)
                  (FindStatementClosingParenthesis stmt p) false hc2 (by omega)
                  (by omega) (by omega),
                ih (statementEnd stmt + 1 - (FindStatementClosingParenthesis stmt p + 1))
                  (by omega) f1' f2' (FindStatementClosingParenthesis stmt p + 1) e
                  (decide (o ≠ OP_NEG)) he (by omega) (by omega) (by omega)]
            · rw [writeRangeF_step_namedOp stmt f1' p e sn o hpe hentry hlo hsd hcnt,
                writeRangeF_step_namedOp stmt f2' p e sn o hpe hentry hlo hsd hcnt,
                ih (statementEnd stmt + 1 - (p + 1)) (by omega) f1' f2' (p + 1) e
                  (decide (o ≠ OP_NEG)) he (by omega) (by omega) (by omega)]
    · rw [writeRangeF_out stmt f1 p e sn hpe, writeRangeF_out stmt f2 p e sn hpe]

end MenuStatement

namespace MenuStatement

/-- C9: the serializer's range loop terminates on every range that ends
inside the entry array.  An operand step advances the cursor by exactly one;
an operator that recurses continues at one past the matching close, which is
strictly greater than the current position (the close is at least one past
the opening); consequently the loop's output is already stable at fuel
`statementEnd + 1 - startOffset`, i.e. the loop completes after finitely
many iterations and `WriteStatementEntryRange` computes its fixed result. -/
theorem writeStatementEntryRange_terminates :
    (∀ (stmt : Statement_s) (p : Nat), p < statementEnd stmt →
      p + 1 ≤ FindStatementClosingParenthesis stmt p ∧
        FindStatementClosingParenthesis stmt p ≤ statementEnd stmt)
    ∧ (∀ (stmt : Statement_s) (f p e : Nat) (sn : Bool) (v : OperandValue),
        p < e → entryAt stmt p = ExpressionEntry.operandEntry v →
        writeRangeF (f + 1) stmt p e sn
          = writeOperandText stmt p sn ++ writeRangeF f stmt (p + 1) e true)
    ∧ (∀ (stmt : Statement_s) (f1 f2 p e : Nat) (sn : Bool),
        e ≤ statementEnd stmt →
        statementEnd stmt + 1 - p ≤ f1 → statementEnd stmt + 1 - p ≤ f2 →
        writeRangeF f1 stmt p e sn = writeRangeF f2 stmt p e sn)
    ∧ ∀ (stmt : Statement_s) (startOffset endOffset f : Nat),
        startOffset ≤ endOffset → endOffset ≤ statementEnd stmt →
        statementEnd stmt + 1 - startOffset ≤ f →
        writeRangeF f stmt startOffset endOffset false
          = WriteStatementEntryRange stmt startOffset endOffset := by
  refine ⟨findClose_bounds, writeRangeF_step_operand, ?_, ?_⟩
  · intro stmt f1 f2 p e sn he h1 h2
    exact writeRangeF_fuel_stable stmt (statementEnd stmt + 1 - p) f1 f2 p e sn
      he (le_refl _) h1 h2
  · intro stmt startOffset endOffset f hse he hf
    exact writeRangeF_fuel_stable stmt (statementEnd stmt + 1 - startOffset) f
      (statementEnd stmt + 1) startOffset endOffset false he (le_refl _) hf
      (by omega)

/-- Witness: the termination bundle instantiated on the nested-parenthesis
example — closing-scan bounds at the opening position 1, one operand step,
fuel stability between fuels 5 and 50, and agreement of an ample-fuel run
with `WriteStatementEntryRange`. -/
theorem writeStatementEntryRange_terminates_witness :
    ((1 : Nat) < statementEnd exNestedParenStatement ∧
      1 + 1 ≤ FindStatementClosingParenthesis exNestedParenStatement 1 ∧
      FindStatementClosingParenthesis exNestedParenStatement 1
        ≤ statementEnd exNestedParenStatement)
    ∧ ((1 : Nat) < 5 ∧
      entryAt exVirtualCallStatement 1
        = ExpressionEntry.operandEntry (OperandValue.intVal 1) ∧
      writeRangeF (7 + 1) exVirtualCallStatement 1 5 false
        = writeOperandText exVirtualCallStatement 1 false
          ++ writeRangeF 7 exVirtualCallStatement 2 5 true)
    ∧ (statementEnd exNestedParenStatement ≤ statementEnd exNestedParenStatement ∧
      writeRangeF 5 exNestedParenStatement 0 (statementEnd exNestedParenStatement) false
        = writeRangeF 50 exNestedParenStatement 0 (statementEnd exNestedParenStatement) false)
    ∧ writeRangeF 9 exNestedParenStatement 0 (statementEnd exNestedParenStatement) false
        = WriteStatementEntryRange exNestedParenStatement 0
            (statementEnd exNestedParenStatement) :=
  ⟨⟨by decide, writeStatementEntryRange_terminates.1 exNestedParenStatement 1 (by decide)⟩,
   ⟨by decide, by decide,
    writeStatementEntryRange_terminates.2.1 exVirtualCallStatement 7 1 5 false
      (OperandValue.intVal 1) (by decide) (by decide)⟩,
   ⟨le_refl _,
    writeStatementEntryRange_terminates.2.2.1 exNestedParenStatement 5 50 0
      (statementEnd exNestedParenStatement) false (le_refl _) (by decide) (by decide)⟩,
   writeStatementEntryRange_terminates.2.2.2 exNestedParenStatement 0
     (statementEnd exNestedParenStatement) 9 (by decide) (le_refl _) (by decide)⟩

end MenuStatement

namespace MenuStatement

/-- C2 counterexample: opcode 23 is at or above the named-operator count,
yet the serializer does not render its opcode-name-table token
(`"dvarint(static)\x01\x02"`) followed by a recursively serialized
bracketed range — it takes the static-dvar accessor branch and renders
`dvarint(#INVALID_DVAR_OPERAND)` instead. -/
theorem virtualFnRendering_counterexample :
    entryAt exStaticDvarBareStatement 0 = ExpressionEntry.operatorEntry 23
    ∧ OP_COUNT ≤ (23 : Int)
    ∧ WriteStatementEntryRange exStaticDvarBareStatement 0 2
        = "dvarint(#INVALID_DVAR_OPERAND)"
    ∧ WriteStatementEntryRange exStaticDvarBareStatement 0 2
        ≠ g_expFunctionNames.getD (23 : Int).toNat "" ++ "("
          ++ WriteStatementEntryRange exStaticDvarBareStatement 1
              (FindStatementClosingParenthesis exStaticDvarBareStatement 0)
          ++ ")" := by
  refine ⟨by decide, by decide, by decide, by decide⟩

/-- C2 amended: for every operator opcode at or above the named-operator
count other than the four static-dvar accessors (23 to 26, which C4's rule
renders specially), the serializer renders the opcode-name-table token (for
opcodes within the table; nothing for opcodes past it), then an opening
parenthesis with no corresponding source entry, then the recursively
serialized entries up to the matching close, then the closing parenthesis;
e.g. such an operator followed by an operand, an explicit comma entry, a
second operand and a right parenthesis serializes to
`functionName(operand1, operand2)`. -/
theorem virtualFnRendering_amended :
    (∀ (stmt : Statement_s) (f p e : Nat) (sn : Bool) (o : Int),
      p < e → entryAt stmt p = ExpressionEntry.operatorEntry o →
      OP_COUNT ≤ o → ¬ o ≤ EXP_FUNC_STATIC_DVAR_STRING →
      writeRangeF (f + 1) stmt p e sn
        = (if sn ∧ o ≠ OP_COMMA then " " else "") ++ operatorNameText o ++ "("
          ++ writeRangeF f stmt (p + 1) (FindStatementClosingParenthesis stmt p) false
          ++ ")"
          ++ writeRangeF f stmt (FindStatementClosingParenthesis stmt p + 1) e
              (decide (o ≠ OP_NEG)))
    ∧ (∀ o : Int, 0 ≤ o → o.toNat < g_expFunctionNames.length →
        operatorNameText o = g_expFunctionNames.getD o.toNat "")
    ∧ (∀ o : Int, o.toNat ≥ g_expFunctionNames.length → operatorNameText o = "")
    ∧ WriteStatementEntryRange exVirtualCallStatement 0 5 = "int(1, 2)" := by
  refine ⟨?_, ?_, ?_, by decide⟩
  · intro stmt f p e sn o hpe hentry hcnt hnotsd
    have hlo : ¬ o = OP_LEFTPAREN := by
      unfold OP_COUNT at hcnt
      unfold OP_LEFTPAREN
      omega
    have hsd : ¬ (EXP_FUNC_STATIC_DVAR_INT ≤ o ∧ o ≤ EXP_FUNC_STATIC_DVAR_STRING) :=
      fun hc => hnotsd hc.2
    exact writeRangeF_step_virtualFn stmt f p e sn o hpe hentry hlo hsd hcnt
  · intro o h0 hlen
    unfold operatorNameText
    rw [if_pos ⟨h0, hlen⟩]
  · intro o hlen
    unfold operatorNameText
    rw [if_neg]
    rintro ⟨h0, hlt⟩
    omega

/-- Witness: the amended virtual-function rendering applied to the concrete
call statement (opcode 27, the `"int"` table entry). -/
theorem virtualFnRendering_amended_witness :
    ((0 : Nat) < 5 ∧
      entryAt exVirtualCallStatement 0 = ExpressionEntry.operatorEntry 27 ∧
      OP_COUNT ≤ (27 : Int) ∧ ¬ (27 : Int) ≤ EXP_FUNC_STATIC_DVAR_STRING ∧
      writeRangeF (5 + 1) exVirtualCallStatement 0 5 false
        = (if (false : Bool) ∧ (27 : Int) ≠ OP_COMMA then " " else "")
          ++ operatorNameText 27 ++ "("
          ++ writeRangeF 5 exVirtualCallStatement 1
              (FindStatementClosingParenthesis exVirtualCallStatement 0) false
          ++ ")"
          ++ writeRangeF 5 exVirtualCallStatement
              (FindStatementClosingParenthesis exVirtualCallStatement 0 + 1) 5
              (decide ((27 : Int) ≠ OP_NEG)))
    ∧ ((0 : Int) ≤ 27 ∧ (27 : Int).toNat < g_expFunctionNames.length ∧
      operatorNameText 27 = g_expFunctionNames.getD (27 : Int).toNat "") :=
  ⟨⟨by decide, by decide, by decide, by decide,
    virtualFnRendering_amended.1 exVirtualCallStatement 5 0 5 false 27
      (by decide) (by decide) (by decide) (by decide)⟩,
   ⟨by decide, by decide,
    virtualFnRendering_amended.2.1 27 (by decide) (by decide)⟩⟩

end MenuStatement

namespace MenuStatement

/-- C4: a static-dvar accessor opcode (23 to 26) renders its
`dvarint`/`dvarbool`/`dvarfloat`/`dvarstring` keyword and a parenthesized
inner text, never aborting: the inner text is the dvar name looked up by
the following integer operand's index into the supporting static-dvar
table, the exact sentinel `#INVALID_DVAR_INDEX` when that index is out of
the table's range, and `#INVALID_DVAR_OPERAND` when the following entry is
not an integer operand; serialization then continues one past the matching
closing parenthesis. -/
theorem staticDvarAccessor_sentinels :
    (∀ (stmt : Statement_s) (f p e : Nat) (sn : Bool) (o : Int),
      p < e → e ≤ statementEnd stmt →
      entryAt stmt p = ExpressionEntry.operatorEntry o →
      EXP_FUNC_STATIC_DVAR_INT ≤ o → o ≤ EXP_FUNC_STATIC_DVAR_STRING →
      writeRangeF (f + 1) stmt p e sn
        = (if sn ∧ o ≠ OP_COMMA then " " else "") ++ staticDvarAccessorName o
          ++ "(" ++ staticDvarValueText stmt p ++ ")"
          ++ writeRangeF f stmt (FindStatementClosingParenthesis stmt p + 1) e true)
    ∧ (staticDvarAccessorName EXP_FUNC_STATIC_DVAR_INT = "dvarint"
      ∧ staticDvarAccessorName EXP_FUNC_STATIC_DVAR_BOOL = "dvarbool"
      ∧ staticDvarAccessorName EXP_FUNC_STATIC_DVAR_FLOAT = "dvarfloat"
      ∧ staticDvarAccessorName EXP_FUNC_STATIC_DVAR_STRING = "dvarstring")
    ∧ (∀ (stmt : Statement_s) (p : Nat) (iv : Int)
        (sd : ExpressionSupportingData) (dvars : List (Option StaticDvar)),
      entryAt stmt (p + 1) = ExpressionEntry.operandEntry (OperandValue.intVal iv) →
      stmt.supportingData = some sd →
      sd.staticDvarList.staticDvars = some dvars →
      ¬ (0 ≤ iv ∧ iv < sd.staticDvarList.numStaticDvars) →
      staticDvarValueText stmt p = "#INVALID_DVAR_INDEX")
    ∧ (∀ (stmt : Statement_s) (p : Nat),
      (∀ iv : Int,
        entryAt stmt (p + 1) ≠ ExpressionEntry.operandEntry (OperandValue.intVal iv)) →
      staticDvarValueText stmt p = "#INVALID_DVAR_OPERAND")
    ∧ (∀ (stmt : Statement_s) (p : Nat) (iv : Int)
        (sd : ExpressionSupportingData) (dvars : List (Option StaticDvar))
        (dv : StaticDvar) (nm : String),
      entryAt stmt (p + 1) = ExpressionEntry.operandEntry (OperandValue.intVal iv) →
      stmt.supportingData = some sd →
      sd.staticDvarList.staticDvars = some dvars →
      0 ≤ iv → iv < sd.staticDvarList.numStaticDvars →
      dvars.getD iv.toNat none = some dv → dv.dvarName = some nm →
      staticDvarValueText stmt p = nm) := by
  refine ⟨?_, ⟨rfl, rfl, rfl, rfl⟩, ?_, ?_, ?_⟩
  · intro stmt f p e sn o hpe he hentry hsd1 hsd2
    have hpE : p < statementEnd stmt := lt_of_lt_of_le hpe he
    obtain ⟨hc1, _⟩ := findClose_bounds stmt p hpE
    have hlo : ¬ o = OP_LEFTPAREN := by
      unfold EXP_FUNC_STATIC_DVAR_INT at hsd1
      unfold OP_LEFTPAREN
      omega
    rw [writeRangeF_step_staticDvar stmt f p e sn o hpe hentry hlo ⟨hsd1, hsd2⟩,
      if_pos (show FindStatementClosingParenthesis stmt p + 1 ≠ p by omega)]
  · intro stmt p iv sd dvars hentry hsup hdvars hout
    simp only [staticDvarValueText, hentry, hsup, hdvars]
    rw [if_neg hout]
  · intro stmt p hnotint
    unfold staticDvarValueText
    cases hentry : entryAt stmt (p + 1) with
    | operatorEntry o => rfl
    | operandEntry v =>
      cases v with
      | intVal iv => exact absurd hentry (hnotint iv)
      | floatVal t => rfl
      | stringVal s => rfl
      | functionVal h => rfl
      | unknownVal => rfl
  · intro stmt p iv sd dvars dv nm hentry hsup hdvars h0 hlt hdv hnm
    simp only [staticDvarValueText, hentry, hsup, hdvars]
    rw [if_pos ⟨h0, hlt⟩, hdv]
    simp [hnm]

/-- Witness: the static-dvar bundle at the out-of-range example (index 5
into a one-entry table renders the `#INVALID_DVAR_INDEX` sentinel inside
`dvarint(...)`), the operator example (a right parenthesis after the
accessor renders `#INVALID_DVAR_OPERAND`), and the in-range example (index
0 renders the stored dvar name). -/
theorem staticDvarAccessor_sentinels_witness :
    ((0 : Nat) < 3 ∧ statementEnd exDvarOutOfRangeStatement ≤ 3 ∧
      writeRangeF (6 + 1) exDvarOutOfRangeStatement 0 3 false
        = (if (false : Bool) ∧ (23 : Int) ≠ OP_COMMA then " " else "")
          ++ staticDvarAccessorName 23 ++ "("
          ++ staticDvarValueText exDvarOutOfRangeStatement 0 ++ ")"
          ++ writeRangeF 6 exDvarOutOfRangeStatement
              (FindStatementClosingParenthesis exDvarOutOfRangeStatement 0 + 1) 3 true)
    ∧ staticDvarValueText exDvarOutOfRangeStatement 0 = "#INVALID_DVAR_INDEX"
    ∧ staticDvarValueText exStaticDvarBareStatement 0 = "#INVALID_DVAR_OPERAND"
    ∧ staticDvarValueText exDvarInRangeStatement 0 = "cg_fov" :=
  ⟨⟨by decide, by decide,
    staticDvarAccessor_sentinels.1 exDvarOutOfRangeStatement 6 0 3 false 23
      (by decide) (by decide) (by decide) (by decide) (by decide)⟩,
   staticDvarAccessor_sentinels.2.2.1 exDvarOutOfRangeStatement 0 5
     exSupportingData exSupportingData.staticDvarList.staticDvars.iget
     (by decide) (by decide) (by decide) (by decide),
   staticDvarAccessor_sentinels.2.2.2.1 exStaticDvarBareStatement 0
     (by intro iv h; exact ExpressionEntry.noConfusion h),
   staticDvarAccessor_sentinels.2.2.2.2 exDvarInRangeStatement 0 0
     exSupportingData [some { dvarName := some "cg_fov" }]
     { dvarName := some "cg_fov" } "cg_fov"
     (by decide) (by decide) (by decide) (by decide) (by decide) (by decide)
     (by decide)⟩

end MenuStatement

namespace MenuStatement

/-- Invariant of the function-table linear search starting at index `i`:
either nothing below `totalFunctions` (and within the array) matches and the
result is -1, or the result is the index of the first match. -/
theorem findFunctionIndexAux_spec (handle : Nat) (total : Int) :
    ∀ (fns : List Nat) (i : Nat),
      (findFunctionIndexAux handle total fns i = -1 ∧
        ∀ j : Nat, j < fns.length → ((i + j : Nat) : Int) < total →
          fns.getD j 0 ≠ handle)
      ∨ (∃ j : Nat, j < fns.length ∧ ((i + j : Nat) : Int) < total ∧
          findFunctionIndexAux handle total fns i = ((i + j : Nat) : Int) ∧
          fns.getD j 0 = handle ∧ ∀ j2, j2 < j → fns.getD j2 0 ≠ handle) := by
  intro fns
  induction fns with
  | nil =>
    intro i
    exact Or.inl ⟨rfl, fun j hj _ => absurd hj (by simp)⟩
  | cons f rest ihr =>
    intro i
    by_cases hi : (i : Int) < total
    · by_cases hf : f = handle
      · refine Or.inr ⟨0, by simp, by simpa using hi, ?_, by simpa using hf,
          fun j2 hj2 => absurd hj2 (by omega)⟩
        show findFunctionIndexAux handle total (f :: rest) i = _
        unfold findFunctionIndexAux
        rw [if_pos hi, if_pos hf]
        simp
      · have hstep : findFunctionIndexAux handle total (f :: rest) i
            = findFunctionIndexAux handle total rest (i + 1) := by
          unfold findFunctionIndexAux
          rw [if_pos hi, if_neg hf]
          cases rest <;> rfl
        rcases ihr (i + 1) with ⟨hres, hall⟩ | ⟨j, hjlen, hjtot, hres, hget, hmin⟩
        · refine Or.inl ⟨by rw [hstep]; exact hres, ?_⟩
          intro j hj hjt
          cases j with
          | zero => simpa using hf
          | succ j =>
            rw [List.getD_cons_succ]
            exact hall j (by simpa using hj) (by push_cast at hjt ⊢; omega)
        · refine Or.inr ⟨j + 1, by simpa using hjlen, by push_cast at hjtot ⊢; omega,
            ?_, by simpa using hget, ?_⟩
          · rw [hstep, hres]
            push_cast
            omega
          · intro j2 hj2
            cases j2 with
            | zero => simpa using hf
            | succ j2 =>
              rw [List.getD_cons_succ]
              exact hmin j2 (by omega)
    · refine Or.inl ⟨?_, fun j hj hjt => absurd hjt (by push_cast at hi ⊢; omega)⟩
      unfold findFunctionIndexAux
      rw [if_neg hi]

/-- C5: a function-valued operand is resolved by linear search of the
supporting function table: the serializer renders `FUNC_<index>` with the
first index whose handle matches, and the exact sentinel `INVALID_FUNC`
when the handle is not found or no table is available; in every case the
loop then continues with the next entry. -/
theorem functionOperand_linear_search :
    (∀ (stmt : Statement_s) (p : Nat) (sn : Bool) (handle : Nat),
      entryAt stmt p = ExpressionEntry.operandEntry (OperandValue.functionVal handle) →
      stmt.supportingData = none →
      writeOperandText stmt p sn = (if sn then " " else "") ++ "INVALID_FUNC")
    ∧ (∀ (stmt : Statement_s) (p : Nat) (sn : Bool) (handle : Nat)
        (sd : ExpressionSupportingData),
      entryAt stmt p = ExpressionEntry.operandEntry (OperandValue.functionVal handle) →
      stmt.supportingData = some sd → sd.uifunctions.functions = none →
      writeOperandText stmt p sn = (if sn then " " else "") ++ "INVALID_FUNC")
    ∧ (∀ (stmt : Statement_s) (p : Nat) (sn : Bool) (handle : Nat)
        (sd : ExpressionSupportingData) (fns : List Nat),
      entryAt stmt p = ExpressionEntry.operandEntry (OperandValue.functionVal handle) →
      stmt.supportingData = some sd → sd.uifunctions.functions = some fns →
      writeOperandText stmt p sn
        = (if sn then " " else "")
          ++ (if 0 ≤ findFunctionIndex fns sd.uifunctions.totalFunctions handle then
                "FUNC_" ++ toString (findFunctionIndex fns sd.uifunctions.totalFunctions handle)
              else "INVALID_FUNC"))
    ∧ (∀ (fns : List Nat) (total : Int) (handle : Nat),
      (0 ≤ findFunctionIndex fns total handle →
        ∃ j : Nat, findFunctionIndex fns total handle = (j : Int) ∧
          j < fns.length ∧ (j : Int) < total ∧ fns.getD j 0 = handle ∧
          ∀ j2, j2 < j → fns.getD j2 0 ≠ handle)
      ∧ (findFunctionIndex fns total handle < 0 →
        findFunctionIndex fns total handle = -1 ∧
          ∀ j : Nat, j < fns.length → (j : Int) < total → fns.getD j 0 ≠ handle))
    ∧ ∀ (stmt : Statement_s) (f p e : Nat) (sn : Bool) (handle : Nat),
        p < e →
        entryAt stmt p = ExpressionEntry.operandEntry (OperandValue.functionVal handle) →
        writeRangeF (f + 1) stmt p e sn
          = writeOperandText stmt p sn ++ writeRangeF f stmt (p + 1) e true := by
  refine ⟨?_, ?_, ?_, ?_, ?_⟩
  · intro stmt p sn handle hentry hsup
    simp only [writeOperandText, hentry, hsup]
  · intro stmt p sn handle sd hentry hsup hfns
    simp only [writeOperandText, hentry, hsup, hfns]
  · intro stmt p sn handle sd fns hentry hsup hfns
    simp only [writeOperandText, hentry, hsup, hfns]
  · intro fns total handle
    rcases findFunctionIndexAux_spec handle total fns 0 with
      ⟨hres, hall⟩ | ⟨j, hjlen, hjtot, hres, hget, hmin⟩
    · constructor
      · intro h0
        rw [show findFunctionIndex fns total handle
            = findFunctionIndexAux handle total fns 0 from rfl, hres] at h0
        omega
      · intro _
        refine ⟨hres, ?_⟩
        intro j hj hjt
        exact hall j hj (by simpa using hjt)
    · constructor
      · intro _
        exact ⟨j, by simpa using hres, hjlen, by simpa using hjtot,
          hget, hmin⟩
      · intro hneg
        rw [show findFunctionIndex fns total handle
            = findFunctionIndexAux handle total fns 0 from rfl, hres] at hneg
        simp at hneg
        omega
  · intro stmt f p e sn handle hpe hentry
    exact writeRangeF_step_operand stmt f p e sn
      (OperandValue.functionVal handle) hpe hentry

/-- Witness: the linear search renders `FUNC_1` for handle 20 (found at
index 1 of the two-entry table) and `INVALID_FUNC` for the absent handle
77, and the search result characterization holds on the concrete table. -/
theorem functionOperand_linear_search_witness :
    (entryAt exFuncFoundStatement 0
        = ExpressionEntry.operandEntry (OperandValue.functionVal 20) ∧
      exFuncFoundStatement.supportingData = some exSupportingData ∧
      exSupportingData.uifunctions.functions = some [10, 20] ∧
      writeOperandText exFuncFoundStatement 0 false
        = (if (false : Bool) then " " else "")
          ++ (if 0 ≤ findFunctionIndex [10, 20]
                  exSupportingData.uifunctions.totalFunctions 20 then
                "FUNC_" ++ toString (findFunctionIndex [10, 20]
                  exSupportingData.uifunctions.totalFunctions 20)
              else "INVALID_FUNC") ∧
      writeOperandText exFuncFoundStatement 0 false = "FUNC_1")
    ∧ (writeOperandText exFuncMissingStatement 0 false = "INVALID_FUNC")
    ∧ ((0 : Int) ≤ findFunctionIndex [10, 20] 2 20 ∧
      ∃ j : Nat, findFunctionIndex [10, 20] 2 20 = (j : Int) ∧
        j < ([10, 20] : List Nat).length ∧ (j : Int) < 2 ∧
        ([10, 20] : List Nat).getD j 0 = 20 ∧
        ∀ j2, j2 < j → ([10, 20] : List Nat).getD j2 0 ≠ 20) :=
  ⟨⟨by decide, by decide, by decide,
    functionOperand_linear_search.2.2.1 exFuncFoundStatement 0 false 20
      exSupportingData [10, 20] (by decide) (by decide) (by decide),
    by decide⟩,
   by decide,
   ⟨by decide,
    (functionOperand_linear_search.2.2.2.1 [10, 20] 2 20).1 (by decide)⟩⟩

end MenuStatement
